import Mathlib

/-!
Shallow embedding of `shantae_curse_eblb.py`, the EBLB binary level codec.

Python `bytes` values are modelled as `List Nat` (each element a byte value,
`< 256` for genuine byte strings); Python `str` values are likewise modelled as
`List Nat` of character codepoints (`encode('ascii')` succeeds exactly when all
codepoints are `< 128`).  Python `int` model fields are `Int`.  Fallible Python
operations (exceptions) are modelled with `Except PyErr`; the constructors of
`PyErr` mirror the exception classes that can escape the codec.
-/

/-- Exception classes reachable from the codec.  `parsing` stands for
`ShantaeCurseEblbParsingError`, `badData` for its subclass
`ShantaeCurseEblbBadData`; the rest are Python built-ins: `struct.error`
(`structError`), `IndexError`, `ValueError`, `UnicodeError`, and `hang` marks
the non-terminating read loop hit when a null-terminated read reaches EOF. -/
inductive PyErr where
  | parsing
  | badData
  | structError
  | indexError
  | valueError
  | unicodeError
  | hang
deriving DecidableEq, Repr

/-- True exactly on `Except.error`. -/
def isError {α : Type} : Except PyErr α → Bool
  | .error _ => true
  | .ok _ => false

/-- Little-endian value of two bytes (`struct` format `H`). -/
def u16v (b0 b1 : Nat) : Nat := b0 + 256 * b1

/-- Little-endian value of four bytes (`struct` format `I`). -/
def u32v (b0 b1 b2 b3 : Nat) : Nat :=
  b0 + 256 * b1 + 65536 * b2 + 16777216 * b3

/-- Little-endian signed value of two bytes (`struct` format `h`). -/
def i16v (b0 b1 : Nat) : Int :=
  if u16v b0 b1 < 32768 then (u16v b0 b1 : Int) else (u16v b0 b1 : Int) - 65536

/-- Little-endian signed value of four bytes (`struct` format `i`). -/
def i32v (b0 b1 b2 b3 : Nat) : Int :=
  if u32v b0 b1 b2 b3 < 2147483648 then (u32v b0 b1 b2 b3 : Int)
  else (u32v b0 b1 b2 b3 : Int) - 4294967296

/-- The two little-endian bytes of a value `< 2^16`. -/
def u16B (n : Nat) : List Nat := [n % 256, n / 256 % 256]

/-- The four little-endian bytes of a value `< 2^32`. -/
def u32B (n : Nat) : List Nat :=
  [n % 256, n / 256 % 256, n / 65536 % 256, n / 16777216 % 256]

/-- `struct.pack` of format `H` on a Python int: fails unless `0 ≤ z < 2^16`,
else the two little-endian bytes. -/
def packU16 (z : Int) : Except PyErr (List Nat) :=
  match z with
  | .ofNat n => if n < 65536 then .ok (u16B n) else .error .structError
  | .negSucc _ => .error .structError

/-- `struct.pack` of format `I` on a Python int: fails unless `0 ≤ z < 2^32`. -/
def packU32 (z : Int) : Except PyErr (List Nat) :=
  match z with
  | .ofNat n => if n < 4294967296 then .ok (u32B n) else .error .structError
  | .negSucc _ => .error .structError

/-- `struct.pack` of format `h` on a Python int: fails unless
`-2^15 ≤ z < 2^15`, else the two little-endian two's-complement bytes. -/
def packI16 (z : Int) : Except PyErr (List Nat) :=
  match z with
  | .ofNat n => if n < 32768 then .ok (u16B n) else .error .structError
  | .negSucc n => if n < 32768 then .ok (u16B (65535 - n)) else .error .structError

/-- `struct.pack` of format `i` on a Python int: fails unless
`-2^31 ≤ z < 2^31`, else the four little-endian two's-complement bytes. -/
def packI32 (z : Int) : Except PyErr (List Nat) :=
  match z with
  | .ofNat n => if n < 2147483648 then .ok (u32B n) else .error .structError
  | .negSucc n =>
    if n < 2147483648 then .ok (u32B (4294967295 - n)) else .error .structError

/-- `struct.pack` of format `B` on a Python int: fails unless `0 ≤ z < 2^8`. -/
def packU8 (z : Int) : Except PyErr (List Nat) :=
  match z with
  | .ofNat n => if n < 256 then .ok [n] else .error .structError
  | .negSucc _ => .error .structError

/-- `b'\x00'.join(strings) + b'\x00'`: the strings null-separated and
null-terminated (for the empty list this is the single terminator byte). -/
def joinNullTerm : List (List Nat) → List Nat
  | [] => [0]
  | [s] => s ++ [0]
  | s :: s2 :: ss => s ++ [0] ++ joinNullTerm (s2 :: ss)

/-- A Python string is ASCII-encodable iff every codepoint is `< 128`. -/
def asciiOk (s : List Nat) : Bool := s.all (· < 128)

/-- `get_padding` from the source: encodes the strings (failing like
`str.encode('ascii')` on a non-ASCII codepoint), null-joins them with a final
terminator, and returns the zero bytes needed to pad that length to a
multiple of 4. -/
def get_padding (strings : List (List Nat)) : Except PyErr (List Nat) :=
  if strings.all asciiOk then
    if (joinNullTerm strings).length % 4 ≠ 0 then
      .ok (List.replicate (4 - (joinNullTerm strings).length % 4) 0)
    else .ok []
  else .error .unicodeError

/-- Python list indexing `l[i]` on an `int` index: a negative index counts from
the end (one wrap only); anything still out of range raises `IndexError`. -/
def pyIndex (l : List (List Nat)) (i : Int) : Except PyErr (List Nat) :=
  if 0 ≤ (if i < 0 then i + l.length else i) ∧
      (if i < 0 then i + l.length else i) < l.length then
    .ok (l.getD (if i < 0 then i + l.length else i).toNat [])
  else .error .indexError

/-- `EblbObject`: the model of one placed object.  The duplicate
`unknown_charb` annotation in the source collapses to a single field. -/
structure EblbObject where
  underworld_type : List Nat
  x_location : Int
  y_location : Int
  unknown_bool6 : Bool
  unknown_bool7 : Bool
  unknown_char8 : Int
  unknown_char9 : Int
  unknown_chara : Int
  unknown_charb : Int
  unknown_shortc : Int
  unknown_inte : Int
deriving DecidableEq, Repr

/-- `EblbObject.from_bytes`: checks the record is exactly 20 bytes, both
boolean bytes are 0 or 1, both trailing padding bytes are zero, then unpacks
`<H2h2?4BhIBB` and resolves the 1-based type index with Python list
indexing. -/
def EblbObject.from_bytes (entry : List Nat) (underworld_types : List (List Nat)) :
    Except PyErr EblbObject :=
  match entry with
  | [e0, e1, e2, e3, e4, e5, e6, e7, e8, e9, e10, e11, e12, e13, e14, e15, e16, e17, e18, e19] =>
    if ¬(e6 = 0 ∨ e6 = 1) then .error .parsing
    else if ¬(e7 = 0 ∨ e7 = 1) then .error .parsing
    else if e18 + e19 ≠ 0 then .error .badData
    else
      match pyIndex underworld_types ((u16v e0 e1 : Int) - 1) with
      | .error e => .error e
      | .ok name =>
        .ok { underworld_type := name
              x_location := i16v e2 e3
              y_location := i16v e4 e5
              unknown_bool6 := e6 != 0
              unknown_bool7 := e7 != 0
              unknown_char8 := (e8 : Int)
              unknown_char9 := (e9 : Int)
              unknown_chara := (e10 : Int)
              unknown_charb := (e11 : Int)
              unknown_shortc := i16v e12 e13
              unknown_inte := (u32v e14 e15 e16 e17 : Int) }
  | _ => .error .parsing

/-- `EblbObject.to_bytes`: recovers the 1-based index of the type name with
`list.index` (`ValueError` when absent) and packs `<H2h2?4BhIBB` with two zero
padding bytes. -/
def EblbObject.to_bytes (o : EblbObject) (underworld_types : List (List Nat)) :
    Except PyErr (List Nat) :=
  if o.underworld_type ∈ underworld_types then
    match packU16 ((underworld_types.indexOf o.underworld_type : Int) + 1) with
    | .error e => .error e
    | .ok bIdx =>
      match packI16 o.x_location with
      | .error e => .error e
      | .ok bx =>
        match packI16 o.y_location with
        | .error e => .error e
        | .ok by_ =>
          match packU8 o.unknown_char8 with
          | .error e => .error e
          | .ok b8 =>
            match packU8 o.unknown_char9 with
            | .error e => .error e
            | .ok b9 =>
              match packU8 o.unknown_chara with
              | .error e => .error e
              | .ok ba =>
                match packU8 o.unknown_charb with
                | .error e => .error e
                | .ok bb =>
                  match packI16 o.unknown_shortc with
                  | .error e => .error e
                  | .ok bsc =>
                    match packU32 o.unknown_inte with
                    | .error e => .error e
                    | .ok bie =>
                      .ok (bIdx ++ bx ++ by_ ++
                        [if o.unknown_bool6 then 1 else 0,
                         if o.unknown_bool7 then 1 else 0] ++
                        b8 ++ b9 ++ ba ++ bb ++ bsc ++ bie ++ [0, 0])
  else .error .valueError

/-- `EblbObject.bbox`: the fixed 16×32 box around the object's location,
unflipped, or flipped against the canvas height. -/
def EblbObject.bbox (o : EblbObject) (image_size : Option (Int × Int)) :
    Int × Int × Int × Int :=
  match image_size with
  | none => (o.x_location, o.y_location + 32, o.x_location + 16, o.y_location)
  | some sz => (o.x_location, sz.2 - (o.y_location + 32), o.x_location + 16,
      sz.2 - o.y_location)

/-- `EntranceAndOrExit`: the model of one door (entrance/exit marker). -/
structure EntranceAndOrExit where
  x1 : Int
  y1 : Int
  x2 : Int
  y2 : Int
  entrance_id : Int
  exit_type_id : Int
  exit_location_id : Int
  entrance_type_id : Int
  exit_scene_name : List Nat
deriving DecidableEq, Repr

/-- `EntranceAndOrExit.bbox`: as written in the source, the unflipped branch
returns `((x1, y2), (x2, y2))` and the flipped branch reflects `y1` and `y2`
against the canvas height. -/
def EntranceAndOrExit.bbox (d : EntranceAndOrExit) (image_size : Option (Int × Int)) :
    (Int × Int) × (Int × Int) :=
  match image_size with
  | none => ((d.x1, d.y2), (d.x2, d.y2))
  | some sz => ((d.x1, sz.2 - d.y1), (d.x2, sz.2 - d.y2))

/-- `EntranceAndOrExit.from_bytes`: unpacks the 28-byte head `<5iHIH`
(four corners and the entrance id as signed 32-bit, then u16 exit_type, u32
exit_location, u16 entrance_type); a buffer of any other length makes
`struct.unpack` raise. -/
def EntranceAndOrExit.from_bytes (entry : List Nat) (exit_name : List Nat) :
    Except PyErr EntranceAndOrExit :=
  match entry with
  | [e0, e1, e2, e3, e4, e5, e6, e7, e8, e9, e10, e11, e12, e13, e14, e15,
     e16, e17, e18, e19, e20, e21, e22, e23, e24, e25, e26, e27] =>
    .ok { x1 := i32v e0 e1 e2 e3
          y1 := i32v e4 e5 e6 e7
          x2 := i32v e8 e9 e10 e11
          y2 := i32v e12 e13 e14 e15
          entrance_id := i32v e16 e17 e18 e19
          exit_type_id := (u16v e20 e21 : Int)
          exit_location_id := (u32v e22 e23 e24 e25 : Int)
          entrance_type_id := (u16v e26 e27 : Int)
          exit_scene_name := exit_name }
  | _ => .error .structError

/-- `EntranceAndOrExit.to_bytes`: packs the 28-byte head `<5iHIH`, then the
ASCII-encoded exit-scene name, a null terminator, and the name's padding. -/
def EntranceAndOrExit.to_bytes (d : EntranceAndOrExit) : Except PyErr (List Nat) :=
  match packI32 d.x1 with
  | .error e => .error e
  | .ok b1 =>
    match packI32 d.y1 with
    | .error e => .error e
    | .ok b2 =>
      match packI32 d.x2 with
      | .error e => .error e
      | .ok b3 =>
        match packI32 d.y2 with
        | .error e => .error e
        | .ok b4 =>
          match packI32 d.entrance_id with
          | .error e => .error e
          | .ok b5 =>
            match packU16 d.exit_type_id with
            | .error e => .error e
            | .ok b6 =>
              match packU32 d.exit_location_id with
              | .error e => .error e
              | .ok b7 =>
                match packU16 d.entrance_type_id with
                | .error e => .error e
                | .ok b8 =>
                  if asciiOk d.exit_scene_name then
                    match get_padding [d.exit_scene_name] with
                    | .error e => .error e
                    | .ok pad =>
                      .ok (b1 ++ b2 ++ b3 ++ b4 ++ b5 ++ b6 ++ b7 ++ b8 ++
                        d.exit_scene_name ++ [0] ++ pad)
                  else .error .unicodeError

/-- The magic string `"UNDERWORLD_TYPES_TYP"` without its trailing null, as
ASCII bytes. -/
def MAGICSTR : List Nat :=
  [85, 78, 68, 69, 82, 87, 79, 82, 76, 68, 95, 84, 89, 80, 69, 83, 95, 84, 89, 80]

/-- The class constant `UNDERWORLD_TYPES_TYP`: the magic string including its
trailing null byte. -/
def MAGIC : List Nat := MAGICSTR ++ [0]

/-- `b''.join(iter(lambda: f.read(1), b'\x00'))`: reads bytes up to (and
consuming) the first null.  When the stream ends before a null is found the
Python loop never terminates; that case is `none`. -/
def readNullStr : List Nat → Option (List Nat × List Nat)
  | [] => none
  | b :: rest =>
    if b = 0 then some ([], rest)
    else
      match readNullStr rest with
      | none => none
      | some (s, r) => some (b :: s, r)

/-- Reads `n` null-terminated strings, ASCII-decoding each
(`UnicodeError` on a codepoint ≥ 128, `hang` on EOF before a null). -/
def readStrings : Nat → List Nat → Except PyErr (List (List Nat) × List Nat)
  | 0, rest => .ok ([], rest)
  | n + 1, rest =>
    match readNullStr rest with
    | none => .error .hang
    | some (s, rest1) =>
      if asciiOk s then
        match readStrings n rest1 with
        | .error e => .error e
        | .ok (ss, rest2) => .ok (s :: ss, rest2)
      else .error .unicodeError

/-- Reads `n` consecutive 20-byte object records (a short final read surfaces
as `EblbObject.from_bytes` rejecting the short chunk, as in the source). -/
def readObjects (types : List (List Nat)) :
    Nat → List Nat → Except PyErr (List EblbObject × List Nat)
  | 0, rest => .ok ([], rest)
  | n + 1, rest =>
    match EblbObject.from_bytes (rest.take 20) types with
    | .error e => .error e
    | .ok o =>
      match readObjects types n (rest.drop 20) with
      | .error e => .error e
      | .ok (os, rest1) => .ok (o :: os, rest1)

/-- Reads `n` door records: a 28-byte head, a null-terminated ASCII name, a
skip over the name's padding, then the head is unpacked. -/
def readDoors : Nat → List Nat → Except PyErr (List EntranceAndOrExit × List Nat)
  | 0, rest => .ok ([], rest)
  | n + 1, rest =>
    match readNullStr (rest.drop 28) with
    | none => .error .hang
    | some (nm, rest1) =>
      if asciiOk nm then
        match get_padding [nm] with
        | .error e => .error e
        | .ok pad =>
          match EntranceAndOrExit.from_bytes (rest.take 28) nm with
          | .error e => .error e
          | .ok d =>
            match readDoors n (rest1.drop pad.length) with
            | .error e => .error e
            | .ok (ds, rest2) => .ok (d :: ds, rest2)
      else .error .unicodeError

/-- Row-major reshape of a flat byte string into rows of width `w`, with fuel
(the list length at the first call), mirroring
`[list(t[i:i+w]) for i in range(0, len(t), w)]` for `w > 0`. -/
def chunkRowsAux : Nat → Nat → List Nat → List (List Nat)
  | 0, _, _ => []
  | _ + 1, _, [] => []
  | fuel + 1, w, b :: l => (b :: l).take w :: chunkRowsAux fuel w ((b :: l).drop w)

/-- Accumulator pass of `dedupFirst`. -/
def dedupFirstAux (seen : List (List Nat)) : List (List Nat) → List (List Nat)
  | [] => []
  | x :: xs =>
    if x ∈ seen then dedupFirstAux seen xs
    else x :: dedupFirstAux (x :: seen) xs

/-- Deterministic embedding of `list({...})`: the distinct elements in order of
first occurrence.  The source builds the list from a Python set, whose
enumeration order is unspecified; every property proved below is independent
of the order chosen, so first-occurrence order stands in for it. -/
def dedupFirst (l : List (List Nat)) : List (List Nat) := dedupFirstAux [] l

/-- `ShantaeCurseEblb`: the level model — objects, doors, the four camera
coordinates, and the row-major tile grid. -/
structure ShantaeCurseEblb where
  objects : List EblbObject
  doors : List EntranceAndOrExit
  camera_x1 : Int
  camera_y1 : Int
  camera_x2 : Int
  camera_y2 : Int
  tiles : List (List Nat)
deriving DecidableEq, Repr

/-- Tile-grid region of decode: the remaining byte count must equal
`tiles_x * tiles_y`, and the reshape constructs `range(0, len, tiles_x)`,
which raises `ValueError` when `tiles_x` is zero. -/
def parseTiles (tiles_x tiles_y : Nat) (r : List Nat) :
    Except PyErr (List (List Nat)) :=
  if r.length ≠ tiles_x * tiles_y then .error .badData
  else if tiles_x = 0 then .error .valueError
  else .ok (chunkRowsAux r.length tiles_x r)

/-- Camera-block region of decode: 20 bytes `<5i`, whose trailing field must
be zero. -/
def parseCameraOn (r : List Nat) :
    Except PyErr ((Int × Int × Int × Int) × List Nat) :=
  match r.take 20 with
  | [c0, c1, c2, c3, c4, c5, c6, c7, c8, c9, c10, c11, c12, c13, c14, c15,
     c16, c17, c18, c19] =>
    if i32v c16 c17 c18 c19 ≠ 0 then .error .parsing
    else .ok ((i32v c0 c1 c2 c3, i32v c4 c5 c6 c7, i32v c8 c9 c10 c11,
        i32v c12 c13 c14 c15), r.drop 20)
  | _ => .error .structError

/-- Decode after the type table: object records, camera block, doors, tiles. -/
def parseAfterTable (objects_count doors_count tiles_x tiles_y : Nat)
    (types : List (List Nat)) (r : List Nat) : Except PyErr ShantaeCurseEblb :=
  match readObjects types objects_count r with
  | .error e => .error e
  | .ok (objs, r1) =>
    match parseCameraOn r1 with
    | .error e => .error e
    | .ok (cam, r2) =>
      match readDoors doors_count r2 with
      | .error e => .error e
      | .ok (doors, r3) =>
        match parseTiles tiles_x tiles_y r3 with
        | .error e => .error e
        | .ok tiles =>
          .ok { objects := objs, doors := doors, camera_x1 := cam.1,
                camera_y1 := cam.2.1, camera_x2 := cam.2.2.1,
                camera_y2 := cam.2.2.2, tiles := tiles }

/-- Decode after the 16-byte header: magic-string check, the type table with
its padding skip, then the rest of the file. -/
def parseAfterHeader (objects_count doors_count types_count tiles_x tiles_y : Nat)
    (r : List Nat) : Except PyErr ShantaeCurseEblb :=
  if r.take 21 ≠ MAGIC then .error .parsing
  else
    match readStrings types_count (r.drop 21) with
    | .error e => .error e
    | .ok (types, r1) =>
      match get_padding (MAGICSTR :: types) with
      | .error e => .error e
      | .ok pad => parseAfterTable objects_count doors_count tiles_x tiles_y
          types (r1.drop pad.length)

/-- `ShantaeCurseEblb.from_eblb_file`: unpacks the 16-byte header `<4H2I`
(a short file makes `struct.unpack` raise), requires the sentinel u16 to be 1,
then parses the remaining regions in order. -/
def ShantaeCurseEblb.from_eblb_file (f : List Nat) : Except PyErr ShantaeCurseEblb :=
  match f with
  | b0 :: b1 :: b2 :: b3 :: b4 :: b5 :: b6 :: b7 :: b8 :: b9 :: b10 :: b11 ::
      b12 :: b13 :: b14 :: b15 :: rest =>
    if u16v b2 b3 ≠ 1 then .error .parsing
    else parseAfterHeader (u16v b0 b1) (u16v b4 b5) (u16v b6 b7)
        (u32v b8 b9 b10 b11) (u32v b12 b13 b14 b15) rest
  | _ => .error .structError

/-- `ShantaeCurseEblb.camera_bbox`: the camera rectangle as two points,
optionally flipped against the canvas height. -/
def ShantaeCurseEblb.camera_bbox (L : ShantaeCurseEblb)
    (image_size : Option (Int × Int)) : (Int × Int) × (Int × Int) :=
  match image_size with
  | none => ((L.camera_x1, L.camera_y1), (L.camera_x2, L.camera_y2))
  | some sz => ((L.camera_x1, sz.2 - L.camera_y1), (L.camera_x2, sz.2 - L.camera_y2))

/-- `ShantaeCurseEblb.check_eblb`: every tile row must have the length of
row 0 (vacuously true for an empty grid). -/
def ShantaeCurseEblb.check_eblb (L : ShantaeCurseEblb) : Except PyErr Unit :=
  if L.tiles.all (fun row => row.length = (L.tiles.headD []).length) then .ok ()
  else .error .badData

/-- The header pack `<4H2I` of encode (the sentinel is the literal 1). -/
def packHeader (objects_count doors_count types_count tiles_x tiles_y : Nat) :
    Except PyErr (List Nat) :=
  match packU16 objects_count with
  | .error e => .error e
  | .ok h0 =>
    match packU16 doors_count with
    | .error e => .error e
    | .ok h2 =>
      match packU16 types_count with
      | .error e => .error e
      | .ok h3 =>
        match packU32 tiles_x with
        | .error e => .error e
        | .ok h4 =>
          match packU32 tiles_y with
          | .error e => .error e
          | .ok h5 => .ok (h0 ++ [1, 0] ++ h2 ++ h3 ++ h4 ++ h5)

/-- The type-table body of encode: each name ASCII-encoded, null-joined with a
final terminator. -/
def encodeStrings (ss : List (List Nat)) : Except PyErr (List Nat) :=
  if ss.all asciiOk then .ok (joinNullTerm ss) else .error .unicodeError

/-- Sequential encode of the object records. -/
def encodeObjects (types : List (List Nat)) :
    List EblbObject → Except PyErr (List Nat)
  | [] => .ok []
  | o :: os =>
    match o.to_bytes types with
    | .error e => .error e
    | .ok b =>
      match encodeObjects types os with
      | .error e => .error e
      | .ok bs => .ok (b ++ bs)

/-- Sequential encode of the door records. -/
def encodeDoors : List EntranceAndOrExit → Except PyErr (List Nat)
  | [] => .ok []
  | d :: ds =>
    match d.to_bytes with
    | .error e => .error e
    | .ok b =>
      match encodeDoors ds with
      | .error e => .error e
      | .ok bs => .ok (b ++ bs)

/-- The camera block of encode: `struct.pack('<5i', x1, y1, x2, y2, 0)`. -/
def packCamera (x1 y1 x2 y2 : Int) : Except PyErr (List Nat) :=
  match packI32 x1 with
  | .error e => .error e
  | .ok b1 =>
    match packI32 y1 with
    | .error e => .error e
    | .ok b2 =>
      match packI32 x2 with
      | .error e => .error e
      | .ok b3 =>
        match packI32 y2 with
        | .error e => .error e
        | .ok b4 => .ok (b1 ++ b2 ++ b3 ++ b4 ++ u32B 0)

/-- `bytes([j for sub in tiles for j in sub])`: the flattened grid, rejected by
the `bytes` constructor when an entry is not a byte value. -/
def encodeTiles (tiles : List (List Nat)) : Except PyErr (List Nat) :=
  if tiles.all (fun row => row.all (· < 256)) then .ok tiles.flatten
  else .error .valueError

/-- `ShantaeCurseEblb.__bytes__`: runs `check_eblb`, rebuilds the type table
from the objects (`list(set(...))`, embedded as `dedupFirst`), and writes
header, magic + table + padding, object records, camera block, door records,
and the flattened tile grid.  With an empty grid the header pack's
`len(self.tiles[0])` argument raises `IndexError` before anything is built. -/
def ShantaeCurseEblb.toBytes (L : ShantaeCurseEblb) : Except PyErr (List Nat) :=
  match L.check_eblb with
  | .error e => .error e
  | .ok _ =>
    match L.tiles with
    | [] => .error .indexError
    | r0 :: _ =>
      match packHeader L.objects.length L.doors.length
          (dedupFirst (L.objects.map (·.underworld_type))).length
          r0.length L.tiles.length with
      | .error e => .error e
      | .ok hdr =>
        match encodeStrings (dedupFirst (L.objects.map (·.underworld_type))) with
        | .error e => .error e
        | .ok tbl =>
          match get_padding (MAGICSTR :: dedupFirst (L.objects.map (·.underworld_type))) with
          | .error e => .error e
          | .ok pad =>
            match encodeObjects (dedupFirst (L.objects.map (·.underworld_type))) L.objects with
            | .error e => .error e
            | .ok objB =>
              match packCamera L.camera_x1 L.camera_y1 L.camera_x2 L.camera_y2 with
              | .error e => .error e
              | .ok camB =>
                match encodeDoors L.doors with
                | .error e => .error e
                | .ok doorB =>
                  match encodeTiles L.tiles with
                  | .error e => .error e
                  | .ok tileB =>
                    .ok (hdr ++ MAGIC ++ tbl ++ pad ++ objB ++ camB ++ doorB ++ tileB)

/-- Generic structured description values (the nested dict/list/primitive
shape that `to_dict` produces and `from_dict` consumes). -/
inductive JVal where
  | jint (i : Int)
  | jbool (b : Bool)
  | jstr (s : List Nat)
  | jlist (xs : List JVal)
  | jdict (entries : List (String × JVal))

/-- First value bound to a key in a dict value (keyword lookup). -/
def JVal.lookup (k : String) : List (String × JVal) → Option JVal
  | [] => none
  | (k1, v) :: rest => if k1 = k then some v else JVal.lookup k rest

/-- `EblbObject._asdict()`: field-name-keyed mapping in field order. -/
def EblbObject.asdict (o : EblbObject) : JVal :=
  .jdict [("underworld_type", .jstr o.underworld_type),
          ("x_location", .jint o.x_location),
          ("y_location", .jint o.y_location),
          ("unknown_bool6", .jbool o.unknown_bool6),
          ("unknown_bool7", .jbool o.unknown_bool7),
          ("unknown_char8", .jint o.unknown_char8),
          ("unknown_char9", .jint o.unknown_char9),
          ("unknown_chara", .jint o.unknown_chara),
          ("unknown_charb", .jint o.unknown_charb),
          ("unknown_shortc", .jint o.unknown_shortc),
          ("unknown_inte", .jint o.unknown_inte)]

/-- `EblbObject(**x)`: rebuilds an object from a dict value, failing like the
keyword call does when a field is missing or of the wrong shape. -/
def EblbObject.ofdict : JVal → Except PyErr EblbObject
  | .jdict es =>
    match JVal.lookup "underworld_type" es, JVal.lookup "x_location" es,
        JVal.lookup "y_location" es, JVal.lookup "unknown_bool6" es,
        JVal.lookup "unknown_bool7" es, JVal.lookup "unknown_char8" es,
        JVal.lookup "unknown_char9" es, JVal.lookup "unknown_chara" es,
        JVal.lookup "unknown_charb" es, JVal.lookup "unknown_shortc" es,
        JVal.lookup "unknown_inte" es with
    | some (.jstr ut), some (.jint x), some (.jint y), some (.jbool b6),
        some (.jbool b7), some (.jint c8), some (.jint c9), some (.jint ca),
        some (.jint cb), some (.jint sc), some (.jint ie) =>
      .ok ⟨ut, x, y, b6, b7, c8, c9, ca, cb, sc, ie⟩
    | _, _, _, _, _, _, _, _, _, _, _ => .error .valueError
  | _ => .error .valueError

/-- `EntranceAndOrExit._asdict()`. -/
def EntranceAndOrExit.asdict (d : EntranceAndOrExit) : JVal :=
  .jdict [("x1", .jint d.x1), ("y1", .jint d.y1), ("x2", .jint d.x2),
          ("y2", .jint d.y2), ("entrance_id", .jint d.entrance_id),
          ("exit_type_id", .jint d.exit_type_id),
          ("exit_location_id", .jint d.exit_location_id),
          ("entrance_type_id", .jint d.entrance_type_id),
          ("exit_scene_name", .jstr d.exit_scene_name)]

/-- `EntranceAndOrExit(**x)`. -/
def EntranceAndOrExit.ofdict : JVal → Except PyErr EntranceAndOrExit
  | .jdict es =>
    match JVal.lookup "x1" es, JVal.lookup "y1" es, JVal.lookup "x2" es,
        JVal.lookup "y2" es, JVal.lookup "entrance_id" es,
        JVal.lookup "exit_type_id" es, JVal.lookup "exit_location_id" es,
        JVal.lookup "entrance_type_id" es, JVal.lookup "exit_scene_name" es with
    | some (.jint x1), some (.jint y1), some (.jint x2), some (.jint y2),
        some (.jint eid), some (.jint ety), some (.jint elo), some (.jint ent),
        some (.jstr nm) =>
      .ok ⟨x1, y1, x2, y2, eid, ety, elo, ent, nm⟩
    | _, _, _, _, _, _, _, _, _ => .error .valueError
  | _ => .error .valueError

/-- `ShantaeCurseEblb.to_dict`: `dataclasses.asdict` of the level with the
object and door lists replaced by their `_asdict()` mappings. -/
def ShantaeCurseEblb.to_dict (L : ShantaeCurseEblb) : JVal :=
  .jdict [("objects", .jlist (L.objects.map EblbObject.asdict)),
          ("doors", .jlist (L.doors.map EntranceAndOrExit.asdict)),
          ("camera_x1", .jint L.camera_x1),
          ("camera_y1", .jint L.camera_y1),
          ("camera_x2", .jint L.camera_x2),
          ("camera_y2", .jint L.camera_y2),
          ("tiles", .jlist (L.tiles.map (fun row =>
            .jlist (row.map (fun t : Nat => .jint (t : Int))))))]

/-- Collects the `int` entries of one tile row's list value. -/
def tileRowAux : List JVal → Except PyErr (List Nat)
  | [] => .ok []
  | .jint i :: vs =>
    match tileRowAux vs with
    | .ok r => .ok (i.toNat :: r)
    | .error e => .error e
  | _ :: _ => .error .valueError

/-- Rebuilds one tile row from its list value (`int` entries). -/
def tileRowOfdict : JVal → Except PyErr (List Nat)
  | .jlist xs => tileRowAux xs
  | _ => .error .valueError

/-- Maps a fallible conversion over list elements. -/
def mapOfdict {α : Type} (f : JVal → Except PyErr α) : List JVal → Except PyErr (List α)
  | [] => .ok []
  | v :: vs =>
    match f v, mapOfdict f vs with
    | .ok a, .ok as_ => .ok (a :: as_)
    | .error e, _ => .error e
    | _, .error e => .error e

/-- `ShantaeCurseEblb.from_dict`: rebuilds the object and door lists from
their dict values and calls the constructor with the remaining fields. -/
def ShantaeCurseEblb.from_dict : JVal → Except PyErr ShantaeCurseEblb
  | .jdict es =>
    match JVal.lookup "objects" es, JVal.lookup "doors" es,
        JVal.lookup "camera_x1" es, JVal.lookup "camera_y1" es,
        JVal.lookup "camera_x2" es, JVal.lookup "camera_y2" es,
        JVal.lookup "tiles" es with
    | some (.jlist objs), some (.jlist doors), some (.jint cx1),
        some (.jint cy1), some (.jint cx2), some (.jint cy2),
        some (.jlist tiles) =>
      match mapOfdict EblbObject.ofdict objs,
          mapOfdict EntranceAndOrExit.ofdict doors,
          mapOfdict tileRowOfdict tiles with
      | .ok os, .ok ds, .ok ts => .ok ⟨os, ds, cx1, cy1, cx2, cy2, ts⟩
      | .error e, _, _ => .error e
      | _, .error e, _ => .error e
      | _, _, .error e => .error e
    | _, _, _, _, _, _, _ => .error .valueError
  | _ => .error .valueError

/-- Decidable equality for results, so concrete codec runs can be decided. -/
instance exceptDecEq {ε α : Type} [DecidableEq ε] [DecidableEq α] :
    DecidableEq (Except ε α) := fun x y =>
  match x, y with
  | .error a, .error b =>
    if h : a = b then .isTrue (by rw [h])
    else .isFalse (fun hc => h (by injection hc))
  | .ok a, .ok b =>
    if h : a = b then .isTrue (by rw [h])
    else .isFalse (fun hc => h (by injection hc))
  | .error _, .ok _ => .isFalse (fun hc => by injection hc)
  | .ok _, .error _ => .isFalse (fun hc => by injection hc)

/-- The synthetic end-to-end buffer: header (0 objects, sentinel 1, 0 doors,
1 type name, 2×2 tiles), magic, table `"A"`, one padding byte, camera block
(0, 0, 10, 10, 0), tile bytes 1 2 3 4. -/
def bufC2 : List Nat :=
  [0, 0, 1, 0, 0, 0, 1, 0, 2, 0, 0, 0, 2, 0, 0, 0] ++ MAGIC ++ [65, 0, 0] ++
  [0, 0, 0, 0, 0, 0, 0, 0, 10, 0, 0, 0, 10, 0, 0, 0, 0, 0, 0, 0] ++ [1, 2, 3, 4]

/-- The level that decoding `bufC2` yields. -/
def levelC2 : ShantaeCurseEblb := ⟨[], [], 0, 0, 10, 10, [[1, 2], [3, 4]]⟩

/-- What re-encoding `levelC2` actually produces: the type table is rebuilt
from the (absent) objects, so the header's type count is 0 and the table body
is just the terminator plus three padding bytes. -/
def bufC2' : List Nat :=
  [0, 0, 1, 0, 0, 0, 0, 0, 2, 0, 0, 0, 2, 0, 0, 0] ++ MAGIC ++ [0, 0, 0, 0] ++
  [0, 0, 0, 0, 0, 0, 0, 0, 10, 0, 0, 0, 10, 0, 0, 0, 0, 0, 0, 0] ++ [1, 2, 3, 4]

/-- A 20-byte object record whose stored type index is 0. -/
def recIndexZero : List Nat :=
  [0, 0, 0, 0, 0, 0, 0, 0, 0, 0, 0, 0, 0, 0, 0, 0, 0, 0, 0, 0]

/-- A valid 20-byte object record whose 16-bit unknown field holds the raw
bytes `0xFF 0xFF`. -/
def recShortcFF : List Nat :=
  [1, 0, 0, 0, 0, 0, 0, 0, 0, 0, 0, 0, 255, 255, 0, 0, 0, 0, 0, 0]

/-- Well-formedness of one object for the serialized ranges: ASCII null-free
type name, signed 16-bit location, byte-sized chars, signed 16-bit short,
unsigned 32-bit int. -/
def objWF (o : EblbObject) : Prop :=
  (∀ c ∈ o.underworld_type, 0 < c ∧ c < 128) ∧
  -32768 ≤ o.x_location ∧ o.x_location < 32768 ∧
  -32768 ≤ o.y_location ∧ o.y_location < 32768 ∧
  0 ≤ o.unknown_char8 ∧ o.unknown_char8 < 256 ∧
  0 ≤ o.unknown_char9 ∧ o.unknown_char9 < 256 ∧
  0 ≤ o.unknown_chara ∧ o.unknown_chara < 256 ∧
  0 ≤ o.unknown_charb ∧ o.unknown_charb < 256 ∧
  -32768 ≤ o.unknown_shortc ∧ o.unknown_shortc < 32768 ∧
  0 ≤ o.unknown_inte ∧ o.unknown_inte < 4294967296

/-- Well-formedness of one door for the serialized ranges. -/
def doorWF (d : EntranceAndOrExit) : Prop :=
  -2147483648 ≤ d.x1 ∧ d.x1 < 2147483648 ∧
  -2147483648 ≤ d.y1 ∧ d.y1 < 2147483648 ∧
  -2147483648 ≤ d.x2 ∧ d.x2 < 2147483648 ∧
  -2147483648 ≤ d.y2 ∧ d.y2 < 2147483648 ∧
  -2147483648 ≤ d.entrance_id ∧ d.entrance_id < 2147483648 ∧
  0 ≤ d.exit_type_id ∧ d.exit_type_id < 65536 ∧
  0 ≤ d.exit_location_id ∧ d.exit_location_id < 4294967296 ∧
  0 ≤ d.entrance_type_id ∧ d.entrance_type_id < 65536 ∧
  (∀ c ∈ d.exit_scene_name, 0 < c ∧ c < 128)

/-- Well-formedness of a level for the round trip: a nonempty object list
(the rebuilt type table must be nonempty for the table terminator byte to be
consumed on decode), counts within u16, fields within their ranges, and a
nonempty rectangular tile grid of byte values with a positive width within
u32. -/
def LevelWF (L : ShantaeCurseEblb) : Prop :=
  L.objects ≠ [] ∧ L.objects.length < 65536 ∧ (∀ o ∈ L.objects, objWF o) ∧
  L.doors.length < 65536 ∧ (∀ d ∈ L.doors, doorWF d) ∧
  -2147483648 ≤ L.camera_x1 ∧ L.camera_x1 < 2147483648 ∧
  -2147483648 ≤ L.camera_y1 ∧ L.camera_y1 < 2147483648 ∧
  -2147483648 ≤ L.camera_x2 ∧ L.camera_x2 < 2147483648 ∧
  -2147483648 ≤ L.camera_y2 ∧ L.camera_y2 < 2147483648 ∧
  L.tiles ≠ [] ∧ (L.tiles.headD []).length ≠ 0 ∧
  (L.tiles.headD []).length < 4294967296 ∧ L.tiles.length < 4294967296 ∧
  (∀ row ∈ L.tiles, row.length = (L.tiles.headD []).length) ∧
  (∀ row ∈ L.tiles, ∀ t ∈ row, t < 256)

/-- The file prefix up to (not including) the camera block's trailing 32-bit
field, for a file with no objects, one type name `"A"`, no doors, a 2×2 grid,
and camera corners (0, 0, 10, 10). -/
def camPre : List Nat :=
  [0, 0, 1, 0, 0, 0, 1, 0, 2, 0, 0, 0, 2, 0, 0, 0] ++ MAGIC ++ [65, 0, 0] ++
  [0, 0, 0, 0, 0, 0, 0, 0, 10, 0, 0, 0, 10, 0, 0, 0]

/-- The same file prefix continued through a zero camera trailer, i.e. the
whole file except the tile payload. -/
def tilesPre : List Nat := camPre ++ [0, 0, 0, 0]

/-- A round-trip example level: one object, one door. -/
def levelEx : ShantaeCurseEblb :=
  ⟨[⟨[66, 79], 5, -7, true, false, 1, 2, 3, 4, -100, 4000000000⟩],
   [⟨10, 20, 30, 40, -1, 7, 70000, 9, [83, 67]⟩],
   -5, 6, 700, -800, [[1, 2], [3, 4]]⟩

/-- A zero-object level: rectangular grid, and its (empty) set of object type
names is exactly the type table encoding derives. -/
def levelNoObjects : ShantaeCurseEblb := ⟨[], [], 0, 0, 0, 0, [[1]]⟩

/-- The bytes that encoding the zero-object level produces: the rebuilt type
table is empty, so after the magic string only the table terminator and three
padding bytes are written — one more byte than the decoder will skip. -/
def bufNoObjects : List Nat :=
  [0, 0, 1, 0, 0, 0, 0, 0, 1, 0, 0, 0, 1, 0, 0, 0] ++ MAGIC ++ [0, 0, 0, 0] ++
  [0, 0, 0, 0, 0, 0, 0, 0, 0, 0, 0, 0, 0, 0, 0, 0, 0, 0, 0, 0] ++ [1]

instance decObjWF (o : EblbObject) : Decidable (objWF o) := by
  unfold objWF; infer_instance

instance decDoorWF (d : EntranceAndOrExit) : Decidable (doorWF d) := by
  unfold doorWF; infer_instance

instance decLevelWF (L : ShantaeCurseEblb) : Decidable (LevelWF L) := by
  unfold LevelWF; infer_instance

/-- `packU16` succeeds on its range. -/
theorem packU16_ok {z : Int} (h0 : 0 ≤ z) (h1 : z < 65536) :
    packU16 z = .ok (u16B z.toNat) := by
  cases z with
  | ofNat n =>
    rw [Int.ofNat_eq_natCast] at h1
    have h1' : n < 65536 := by exact_mod_cast h1
    simp only [packU16, if_pos h1']
    rfl
  | negSucc n => exact absurd h0 (by simp)

/-- `packU32` succeeds on its range. -/
theorem packU32_ok {z : Int} (h0 : 0 ≤ z) (h1 : z < 4294967296) :
    packU32 z = .ok (u32B z.toNat) := by
  cases z with
  | ofNat n =>
    rw [Int.ofNat_eq_natCast] at h1
    have h1' : n < 4294967296 := by exact_mod_cast h1
    simp only [packU32, if_pos h1']
    rfl
  | negSucc n => exact absurd h0 (by simp)

/-- `packI16` succeeds on its range. -/
theorem packI16_ok {z : Int} (h0 : -32768 ≤ z) (h1 : z < 32768) :
    packI16 z = .ok (u16B (z % 65536).toNat) := by
  cases z with
  | ofNat n =>
    rw [Int.ofNat_eq_natCast] at h1
    have h1' : n < 32768 := by exact_mod_cast h1
    have hn : (((n : Int)) % 65536).toNat = n := by omega
    simp only [packI16, Int.ofNat_eq_natCast, hn, if_pos h1']
  | negSucc n =>
    have he := Int.negSucc_eq n
    rw [he] at h0 h1
    have hb : n < 32768 := by omega
    have hn : ((-((n : Int) + 1)) % 65536).toNat = 65535 - n := by omega
    simp only [packI16, he, hn, if_pos hb]

/-- `packI32` succeeds on its range. -/
theorem packI32_ok {z : Int} (h0 : -2147483648 ≤ z) (h1 : z < 2147483648) :
    packI32 z = .ok (u32B (z % 4294967296).toNat) := by
  cases z with
  | ofNat n =>
    rw [Int.ofNat_eq_natCast] at h1
    have h1' : n < 2147483648 := by exact_mod_cast h1
    have hn : (((n : Int)) % 4294967296).toNat = n := by omega
    simp only [packI32, Int.ofNat_eq_natCast, hn, if_pos h1']
  | negSucc n =>
    have he := Int.negSucc_eq n
    rw [he] at h0 h1
    have hb : n < 2147483648 := by omega
    have hn : ((-((n : Int) + 1)) % 4294967296).toNat = 4294967295 - n := by omega
    simp only [packI32, he, hn, if_pos hb]

/-- `packU8` succeeds on its range. -/
theorem packU8_ok {z : Int} (h0 : 0 ≤ z) (h1 : z < 256) :
    packU8 z = .ok [z.toNat] := by
  cases z with
  | ofNat n =>
    rw [Int.ofNat_eq_natCast] at h1
    have h1' : n < 256 := by exact_mod_cast h1
    simp only [packU8, if_pos h1']
    rfl
  | negSucc n => exact absurd h0 (by simp)

/-- C3: for a door with corners (10, 20, 30, 40), `bbox` with no image size
evaluates to ((10, 40), (30, 40)) — the first point's y-coordinate is `y2`,
not `y1` as the claim states — while with image height 100 it evaluates to
((10, 80), (30, 60)) exactly as the claim states. -/
theorem c3_door_bbox_eval :
    (⟨10, 20, 30, 40, 0, 0, 0, 0, []⟩ : EntranceAndOrExit).bbox none =
      ((10, 40), (30, 40)) ∧
    (⟨10, 20, 30, 40, 0, 0, 0, 0, []⟩ : EntranceAndOrExit).bbox (some (0, 100)) =
      ((10, 80), (30, 60)) :=
  ⟨rfl, rfl⟩

/-- C4: a 20-byte record that passes the length, boolean, and padding checks
and stores type index 0 is NOT rejected: against the non-empty table
`["A"]`, `from_bytes` silently resolves index 0 to the table's last entry
via Python negative indexing and returns an object typed `"A"`. -/
theorem c4_index_zero_silent :
    EblbObject.from_bytes recIndexZero [[65]] =
      .ok ⟨[65], 0, 0, false, false, 0, 0, 0, 0, 0, 0⟩ :=
  rfl

/-- C10: a level with an empty tiles list passes `check_eblb` vacuously, and
encoding then fails with `IndexError` (the unguarded `self.tiles[0]` in the
header pack), an error outside the codec's own exception hierarchy. -/
theorem c10_empty_tiles_encode (L : ShantaeCurseEblb) (h : L.tiles = []) :
    L.check_eblb = .ok () ∧ L.toBytes = .error .indexError := by
  have hc : L.check_eblb = .ok () := by
    unfold ShantaeCurseEblb.check_eblb
    rw [if_pos (by rw [h]; rfl)]
  refine ⟨hc, ?_⟩
  unfold ShantaeCurseEblb.toBytes
  rw [hc, h]

/-- C10 witness: the concrete empty-grid level. -/
theorem c10_empty_tiles_encode_witness :
    (⟨[], [], 0, 0, 0, 0, []⟩ : ShantaeCurseEblb).tiles = [] ∧
    (⟨[], [], 0, 0, 0, 0, []⟩ : ShantaeCurseEblb).check_eblb = .ok () ∧
    (⟨[], [], 0, 0, 0, 0, []⟩ : ShantaeCurseEblb).toBytes = .error .indexError :=
  ⟨rfl, (c10_empty_tiles_encode _ rfl).1, (c10_empty_tiles_encode _ rfl).2⟩

/-- C7: encoding runs the rectangularity check before anything is written:
whenever some tile row's length differs from row 0's, `bytes(L)` is the
bad-data error (and, the embedding being pure, yields no byte output and
leaves the level untouched). -/
theorem c7_encode_checks_rect (L : ShantaeCurseEblb)
    (h : ∃ row ∈ L.tiles, row.length ≠ (L.tiles.headD []).length) :
    L.toBytes = .error .badData := by
  have hc : L.check_eblb = .error .badData := by
    unfold ShantaeCurseEblb.check_eblb
    rw [if_neg]
    simp only [List.all_eq_true, decide_eq_true_eq]
    push_neg
    exact h
  unfold ShantaeCurseEblb.toBytes
  rw [hc]

/-- C7 witness: a concrete ragged grid. -/
theorem c7_encode_checks_rect_witness :
    (∃ row ∈ ([[1], [2, 3]] : List (List Nat)),
      row.length ≠ (([[1], [2, 3]] : List (List Nat)).headD []).length) ∧
    (⟨[], [], 0, 0, 0, 0, [[1], [2, 3]]⟩ : ShantaeCurseEblb).toBytes = .error .badData :=
  ⟨⟨[2, 3], by decide, by decide⟩,
    c7_encode_checks_rect _ ⟨[2, 3], by decide, by decide⟩⟩

/-- C6: on any list of ASCII strings `get_padding` succeeds, returns only zero
bytes, at most three of them, their count completes the null-joined,
null-terminated byte length to a multiple of 4, and that count is minimal
among all such counts. -/
theorem c6_get_padding_correct (strings : List (List Nat))
    (h : ∀ s ∈ strings, ∀ c ∈ s, c < 128) :
    ∃ pad, get_padding strings = .ok pad ∧
      (∀ b ∈ pad, b = 0) ∧ pad.length ≤ 3 ∧
      ((joinNullTerm strings).length + pad.length) % 4 = 0 ∧
      (∀ k, ((joinNullTerm strings).length + k) % 4 = 0 → pad.length ≤ k) := by
  have hall : strings.all asciiOk = true := by
    simp only [List.all_eq_true, asciiOk, decide_eq_true_eq]
    exact h
  unfold get_padding
  rw [if_pos hall]
  by_cases hm : (joinNullTerm strings).length % 4 = 0
  · rw [if_neg (not_ne_iff.mpr hm)]
    exact ⟨[], rfl, by simp, by simp, by simpa using hm, fun k _ => by simp⟩
  · rw [if_pos (by simpa using hm)]
    refine ⟨_, rfl, ?_, ?_, ?_, ?_⟩
    · intro b hb
      exact (List.eq_of_mem_replicate hb)
    · rw [List.length_replicate]; omega
    · rw [List.length_replicate]; omega
    · intro k hk
      rw [List.length_replicate]; omega

/-- C6 witness: the one-string list `["A"]`. -/
theorem c6_get_padding_correct_witness :
    (∀ s ∈ [[65]], ∀ c ∈ s, c < 128) ∧
    ∃ pad, get_padding [[65]] = .ok pad ∧
      (∀ b ∈ pad, b = 0) ∧ pad.length ≤ 3 ∧
      ((joinNullTerm [[65]]).length + pad.length) % 4 = 0 ∧
      (∀ k, ((joinNullTerm [[65]]).length + k) % 4 = 0 → pad.length ≤ k) :=
  ⟨by decide, c6_get_padding_correct [[65]] (by decide)⟩

/-- C2 counterexample: decoding the synthetic buffer succeeds, but re-encoding
the decoded level does not reproduce the input buffer (the level has no
objects, so encoding derives an empty type table and drops `"A"`). -/
theorem c2_reencode_differs :
    ShantaeCurseEblb.from_eblb_file bufC2 = .ok levelC2 ∧
    levelC2.toBytes ≠ .ok bufC2 := by
  constructor
  · rfl
  · intro hcontra
    have hre : levelC2.toBytes = .ok bufC2' := by rfl
    rw [hre] at hcontra
    have : bufC2' = bufC2 := by injection hcontra
    exact absurd this (by decide)

/-- C2 amended: decoding the synthetic buffer yields tiles `[[1,2],[3,4]]`
and camera bbox ((0,0),(10,10)) as claimed, but re-encoding produces the
65-byte buffer whose header type count is 0 and whose type table region is
just the terminator and three padding bytes, not the input buffer. -/
theorem c2_end_to_end_amended :
    ShantaeCurseEblb.from_eblb_file bufC2 = .ok levelC2 ∧
    levelC2.tiles = [[1, 2], [3, 4]] ∧
    levelC2.camera_bbox none = ((0, 0), (10, 10)) ∧
    levelC2.toBytes = .ok bufC2' :=
  ⟨rfl, rfl, rfl, rfl⟩

/-- C9 counterexample: a valid record whose 16-bit unknown field holds bytes
0xFF 0xFF decodes to `unknown_shortc = -1`, outside the unsigned range
[0, 65535] the claim asserts — the field is signed (`h`), not unsigned. -/
theorem c9_shortc_negative :
    EblbObject.from_bytes recShortcFF [[65]] =
      .ok ⟨[65], 0, 0, false, false, 0, 0, 0, 0, -1, 0⟩ ∧
    ¬(0 ≤ (⟨[65], 0, 0, false, false, 0, 0, 0, 0, -1, 0⟩ : EblbObject).unknown_shortc) :=
  ⟨rfl, by decide⟩

/-- A member's index is below the list length. -/
theorem indexOf_lt_len {a : List Nat} : ∀ {l : List (List Nat)}, a ∈ l →
    l.indexOf a < l.length := by
  intro l h
  induction l with
  | nil => simp at h
  | cons x xs ih =>
    rw [List.indexOf_cons]
    cases hbeq : x == a with
    | true => simp
    | false =>
      have hne : x ≠ a := fun hc => by simp [hc] at hbeq
      have hmem : a ∈ xs := by
        rcases List.mem_cons.1 h with h1 | h1
        · exact absurd h1.symm hne
        · exact h1
      simpa using Nat.succ_lt_succ (ih hmem)

/-- Default-valued indexing at a member's index returns the member. -/
theorem getD_indexOf {a : List Nat} : ∀ {l : List (List Nat)}, a ∈ l →
    l.getD (l.indexOf a) [] = a := by
  intro l h
  induction l with
  | nil => simp at h
  | cons x xs ih =>
    rw [List.indexOf_cons]
    cases hbeq : x == a with
    | true =>
      simpa using eq_of_beq hbeq
    | false =>
      have hne : x ≠ a := fun hc => by simp [hc] at hbeq
      have hmem : a ∈ xs := by
        rcases List.mem_cons.1 h with h1 | h1
        · exact absurd h1.symm hne
        · exact h1
      simpa using ih hmem

/-- C9 amended: the 16-bit unknown field is signed — decoding any valid
byte record yields `unknown_shortc` in [-32768, 32767] and `unknown_inte` in
[0, 2^32 - 1], and `to_bytes` accepts exactly those ranges for the two fields
(given the other fields in range and the type name present in a table of at
most 65535 entries). -/
theorem c9_unknown_fields_ranges :
    (∀ entry types o, (∀ b ∈ entry, b < 256) →
        EblbObject.from_bytes entry types = .ok o →
        -32768 ≤ o.unknown_shortc ∧ o.unknown_shortc < 32768 ∧
        0 ≤ o.unknown_inte ∧ o.unknown_inte < 4294967296) ∧
    (∀ (o : EblbObject) (types : List (List Nat)),
        o.underworld_type ∈ types → types.length < 65536 →
        -32768 ≤ o.x_location → o.x_location < 32768 →
        -32768 ≤ o.y_location → o.y_location < 32768 →
        0 ≤ o.unknown_char8 → o.unknown_char8 < 256 →
        0 ≤ o.unknown_char9 → o.unknown_char9 < 256 →
        0 ≤ o.unknown_chara → o.unknown_chara < 256 →
        0 ≤ o.unknown_charb → o.unknown_charb < 256 →
        -32768 ≤ o.unknown_shortc → o.unknown_shortc < 32768 →
        0 ≤ o.unknown_inte → o.unknown_inte < 4294967296 →
        isError (o.to_bytes types) = false) := by
  constructor
  · intro entry types o hb hok
    unfold EblbObject.from_bytes at hok
    split at hok
    case _ e0 e1 e2 e3 e4 e5 e6 e7 e8 e9 e10 e11 e12 e13 e14 e15 e16 e17 e18 e19 =>
      have h12 : e12 < 256 := hb e12 (by simp)
      have h13 : e13 < 256 := hb e13 (by simp)
      have h14 : e14 < 256 := hb e14 (by simp)
      have h15 : e15 < 256 := hb e15 (by simp)
      have h16 : e16 < 256 := hb e16 (by simp)
      have h17 : e17 < 256 := hb e17 (by simp)
      split at hok
      · exact absurd hok (by simp)
      split at hok
      · exact absurd hok (by simp)
      split at hok
      · exact absurd hok (by simp)
      split at hok
      · exact absurd hok (by simp)
      case _ name heqname =>
        have hfields := (Except.ok.inj hok)
        rw [← hfields]
        refine ⟨?_, ?_, ?_, ?_⟩
        · show -32768 ≤ i16v e12 e13
          unfold i16v u16v
          split <;> omega
        · show i16v e12 e13 < 32768
          unfold i16v u16v at *
          split <;> omega
        · show (0 : Int) ≤ (u32v e14 e15 e16 e17 : Int)
          exact Int.ofNat_nonneg _
        · show (u32v e14 e15 e16 e17 : Int) < 4294967296
          unfold u32v
          omega
    case _ =>
      exact absurd hok (by simp)
  · intro o types hmem hlen hx0 hx1 hy0 hy1 h80 h81 h90 h91 ha0 ha1 hb0 hb1
      hs0 hs1 hi0 hi1
    have hidxlt := indexOf_lt_len hmem
    have hidx0 : (0 : Int) ≤ (types.indexOf o.underworld_type : Int) + 1 := by
      omega
    have hidx1 : (types.indexOf o.underworld_type : Int) + 1 < 65536 := by
      omega
    unfold EblbObject.to_bytes
    rw [if_pos hmem, packU16_ok hidx0 hidx1, packI16_ok hx0 hx1,
      packI16_ok hy0 hy1, packU8_ok h80 h81, packU8_ok h90 h91,
      packU8_ok ha0 ha1, packU8_ok hb0 hb1, packI16_ok hs0 hs1,
      packU32_ok hi0 hi1]
    rfl

/-- C9 witness: the record `recShortcFF` decodes within the signed ranges, and
its decoded object re-packs successfully. -/
theorem c9_unknown_fields_ranges_witness :
    (-32768 ≤ (⟨[65], 0, 0, false, false, 0, 0, 0, 0, -1, 0⟩ : EblbObject).unknown_shortc ∧
      (⟨[65], 0, 0, false, false, 0, 0, 0, 0, -1, 0⟩ : EblbObject).unknown_shortc < 32768 ∧
      0 ≤ (⟨[65], 0, 0, false, false, 0, 0, 0, 0, -1, 0⟩ : EblbObject).unknown_inte ∧
      (⟨[65], 0, 0, false, false, 0, 0, 0, 0, -1, 0⟩ : EblbObject).unknown_inte < 4294967296) ∧
    isError ((⟨[65], 0, 0, false, false, 0, 0, 0, 0, -1, 0⟩ : EblbObject).to_bytes [[65]]) = false :=
  ⟨c9_unknown_fields_ranges.1 recShortcFF [[65]] _ (by decide) rfl,
   c9_unknown_fields_ranges.2 _ [[65]] (by decide) (by decide) (by decide)
     (by decide) (by decide) (by decide) (by decide) (by decide) (by decide)
     (by decide) (by decide) (by decide) (by decide) (by decide) (by decide)
     (by decide) (by decide) (by decide)⟩

/-- Recombining the two little-endian bytes of a u16 value. -/
theorem u16v_u16B {n : Nat} (h : n < 65536) :
    u16v (n % 256) (n / 256 % 256) = n := by
  unfold u16v; omega

/-- Recombining the four little-endian bytes of a u32 value. -/
theorem u32v_u32B {n : Nat} (h : n < 4294967296) :
    u32v (n % 256) (n / 256 % 256) (n / 65536 % 256) (n / 16777216 % 256) = n := by
  unfold u32v; omega

/-- Signed 16-bit round trip through the two's-complement bytes. -/
theorem i16v_i16B {z : Int} (h0 : -32768 ≤ z) (h1 : z < 32768) :
    i16v ((z % 65536).toNat % 256) ((z % 65536).toNat / 256 % 256) = z := by
  unfold i16v u16v
  split <;> omega

/-- Signed 32-bit round trip through the two's-complement bytes. -/
theorem i32v_i32B {z : Int} (h0 : -2147483648 ≤ z) (h1 : z < 2147483648) :
    i32v ((z % 4294967296).toNat % 256) ((z % 4294967296).toNat / 256 % 256)
      ((z % 4294967296).toNat / 65536 % 256)
      ((z % 4294967296).toNat / 16777216 % 256) = z := by
  unfold i32v u32v
  split <;> omega

/-- The bytes of a u16 value are byte-sized. -/
theorem u16B_lt (n : Nat) : ∀ b ∈ u16B n, b < 256 := by
  unfold u16B; intro b hb
  rcases List.mem_cons.1 hb with h | h
  · omega
  · rcases List.mem_cons.1 h with h1 | h1
    · omega
    · simp at h1

/-- Reading a null-terminated string finds exactly the null-free prefix. -/
theorem readNullStr_append {s : List Nat} (h : ∀ c ∈ s, c ≠ 0) :
    ∀ rest, readNullStr (s ++ 0 :: rest) = some (s, rest) := by
  induction s with
  | nil => intro rest; simp [readNullStr]
  | cons c cs ih =>
    intro rest
    have hc : c ≠ 0 := h c (List.mem_cons_self c cs)
    have hcs : ∀ x ∈ cs, x ≠ 0 := fun x hx => h x (List.mem_cons_of_mem c hx)
    simp only [List.cons_append, readNullStr, if_neg hc, List.append_eq, ih hcs rest]

/-- Reading back a non-empty null-joined, null-terminated table recovers
exactly the strings written. -/
theorem readStrings_joinNullTerm :
    ∀ (types : List (List Nat)), types ≠ [] →
      (∀ s ∈ types, ∀ c ∈ s, 0 < c ∧ c < 128) →
      ∀ rest, readStrings types.length (joinNullTerm types ++ rest) =
        .ok (types, rest) := by
  intro types
  induction types with
  | nil => intro h; exact absurd rfl h
  | cons s ss ih =>
    intro _ hascii rest
    have hs0 : ∀ c ∈ s, c ≠ 0 :=
      fun c hc => Nat.pos_iff_ne_zero.1 (hascii s (List.mem_cons_self s ss) c hc).1
    have hsascii : asciiOk s = true := by
      simp only [asciiOk, List.all_eq_true, decide_eq_true_eq]
      exact fun c hc => (hascii s (List.mem_cons_self s ss) c hc).2
    cases ss with
    | nil =>
      show readStrings 1 ((s ++ [0]) ++ rest) = .ok ([s], rest)
      rw [List.append_assoc]
      show readStrings (0 + 1) (s ++ 0 :: rest) = .ok ([s], rest)
      rw [readStrings]
      simp only [readNullStr_append hs0, hsascii, if_true]
      rfl
    | cons s2 ss2 =>
      show readStrings (s2 :: ss2).length.succ
          ((s ++ [0] ++ joinNullTerm (s2 :: ss2)) ++ rest) = .ok (s :: s2 :: ss2, rest)
      rw [List.append_assoc, List.append_assoc]
      show readStrings ((s2 :: ss2).length + 1)
          (s ++ (0 :: (joinNullTerm (s2 :: ss2) ++ rest))) = .ok (s :: s2 :: ss2, rest)
      have hrec := ih (by simp) (fun t ht c hc =>
        hascii t (List.mem_cons_of_mem s ht) c hc) rest
      rw [readStrings]
      simp only [readNullStr_append hs0, hsascii, if_true, hrec]

/-- Every element of the deduplicated list comes from the input. -/
theorem dedupFirstAux_subset :
    ∀ (l seen : List (List Nat)) (a : List Nat), a ∈ dedupFirstAux seen l → a ∈ l := by
  intro l
  induction l with
  | nil => intro seen a h; simp [dedupFirstAux] at h
  | cons x xs ih =>
    intro seen a h
    unfold dedupFirstAux at h
    by_cases hx : x ∈ seen
    · rw [if_pos hx] at h
      exact List.mem_cons_of_mem x (ih seen a h)
    · rw [if_neg hx] at h
      rcases List.mem_cons.1 h with h1 | h1
      · rw [h1]; exact List.mem_cons_self x xs
      · exact List.mem_cons_of_mem x (ih (x :: seen) a h1)

/-- Every input element outside `seen` appears in the deduplicated list. -/
theorem dedupFirstAux_mem :
    ∀ (l seen : List (List Nat)) (a : List Nat), a ∈ l → a ∉ seen →
      a ∈ dedupFirstAux seen l := by
  intro l
  induction l with
  | nil => intro seen a h; simp at h
  | cons x xs ih =>
    intro seen a h hns
    unfold dedupFirstAux
    by_cases hx : x ∈ seen
    · rw [if_pos hx]
      rcases List.mem_cons.1 h with h1 | h1
      · exact absurd (h1 ▸ hx) hns
      · exact ih seen a h1 hns
    · rw [if_neg hx]
      rcases List.mem_cons.1 h with h1 | h1
      · rw [h1]; exact List.mem_cons_self x _
      · by_cases hax : a = x
        · rw [hax]; exact List.mem_cons_self x _
        · exact List.mem_cons_of_mem x
            (ih (x :: seen) a h1 (by simp [hax, hns]))

/-- The deduplicated list is no longer than the input. -/
theorem dedupFirstAux_length :
    ∀ (l seen : List (List Nat)), (dedupFirstAux seen l).length ≤ l.length := by
  intro l
  induction l with
  | nil => intro seen; simp [dedupFirstAux]
  | cons x xs ih =>
    intro seen
    unfold dedupFirstAux
    by_cases hx : x ∈ seen
    · rw [if_pos hx]
      exact Nat.le_succ_of_le (ih seen)
    · rw [if_neg hx]
      simpa using ih (x :: seen)

/-- A flat list of equal-width rows has length `rows × width`. -/
theorem flatten_length_const :
    ∀ (rows : List (List Nat)) (w : Nat), (∀ r ∈ rows, r.length = w) →
      rows.flatten.length = rows.length * w := by
  intro rows w
  induction rows with
  | nil => intro _; simp
  | cons r rs ih =>
    intro h
    have hr : r.length = w := h r (List.mem_cons_self r rs)
    have hrs := ih (fun x hx => h x (List.mem_cons_of_mem r hx))
    simp [List.flatten_cons, hr, hrs, Nat.succ_mul, Nat.add_comm]

/-- Chunking the flattened rows recovers the rows, given enough fuel and a
positive uniform width. -/
theorem chunkRowsAux_flatten :
    ∀ (rows : List (List Nat)) (w fuel : Nat), 0 < w →
      (∀ r ∈ rows, r.length = w) → rows.length ≤ fuel →
      chunkRowsAux fuel w rows.flatten = rows := by
  intro rows
  induction rows with
  | nil =>
    intro w fuel _ _ _
    cases fuel <;> simp [chunkRowsAux]
  | cons r rs ih =>
    intro w fuel hw h hfuel
    have hr : r.length = w := h r (List.mem_cons_self r rs)
    cases fuel with
    | zero => simp at hfuel
    | succ f =>
      have hrne : r ≠ [] := by
        intro hc; rw [hc] at hr; simp at hr; omega
      have hne : r ++ rs.flatten ≠ [] := by
        intro hc; exact hrne (List.append_eq_nil.1 hc).1
      rw [List.flatten_cons]
      obtain ⟨b, l, hbl⟩ : ∃ b l, r ++ rs.flatten = b :: l := by
        cases hrl : r ++ rs.flatten with
        | nil => exact absurd hrl hne
        | cons b l => exact ⟨b, l, rfl⟩
      rw [hbl]
      show (b :: l).take w :: chunkRowsAux f w ((b :: l).drop w) = r :: rs
      rw [← hbl, List.take_left' hr, List.drop_left' hr,
        ih w f hw (fun x hx => h x (List.mem_cons_of_mem r hx))
          (Nat.le_of_succ_le_succ hfuel)]

/-- One object record round-trips: a well-formed object whose type name is in
the (u16-sized) table packs to a 20-byte record that `from_bytes` decodes back
to the same object, also as the head of any longer stream. -/
theorem obj_roundtrip (o : EblbObject) (types : List (List Nat))
    (hwf : objWF o) (hmem : o.underworld_type ∈ types) (hlen : types.length < 65536) :
    ∃ b, o.to_bytes types = .ok b ∧ b.length = 20 ∧
      ∀ rest, EblbObject.from_bytes ((b ++ rest).take 20) types = .ok o := by
  obtain ⟨ut, x, y, b6, b7, c8, c9, ca, cb, sc, ie⟩ := o
  obtain ⟨hascii, hx0, hx1, hy0, hy1, h80, h81, h90, h91, ha0, ha1, hb0, hb1,
    hs0, hs1, hi0, hi1⟩ := hwf
  dsimp only at hascii hx0 hx1 hy0 hy1 h80 h81 h90 h91 ha0 ha1 hb0 hb1 hs0 hs1 hi0 hi1 hmem
  have hidxlt := indexOf_lt_len hmem
  have hidx0 : (0 : Int) ≤ (types.indexOf ut : Int) + 1 := by omega
  have hidx1 : (types.indexOf ut : Int) + 1 < 65536 := by omega
  have ht : ((types.indexOf ut : Int) + 1).toNat = types.indexOf ut + 1 := by omega
  have henc : EblbObject.to_bytes ⟨ut, x, y, b6, b7, c8, c9, ca, cb, sc, ie⟩ types = .ok
      (u16B (types.indexOf ut + 1) ++
        u16B (x % 65536).toNat ++ u16B (y % 65536).toNat ++
        [if b6 then 1 else 0, if b7 then 1 else 0] ++
        [c8.toNat] ++ [c9.toNat] ++ [ca.toNat] ++ [cb.toNat] ++
        u16B (sc % 65536).toNat ++ u32B ie.toNat ++ [0, 0]) := by
    unfold EblbObject.to_bytes
    rw [if_pos hmem, packU16_ok hidx0 hidx1, packI16_ok hx0 hx1,
      packI16_ok hy0 hy1, packU8_ok h80 h81, packU8_ok h90 h91,
      packU8_ok ha0 ha1, packU8_ok hb0 hb1, packI16_ok hs0 hs1,
      packU32_ok hi0 hi1, ht]
  have hu16 : u16v ((types.indexOf ut + 1) % 256)
      ((types.indexOf ut + 1) / 256 % 256) = types.indexOf ut + 1 :=
    u16v_u16B (by omega)
  have hpy : pyIndex types ((types.indexOf ut : Nat) : Int) = .ok ut := by
    unfold pyIndex
    have hj : (if (types.indexOf ut : Int) < 0
        then (types.indexOf ut : Int) + types.length
        else (types.indexOf ut : Int)) = (types.indexOf ut : Int) :=
      if_neg (by omega)
    rw [hj, if_pos ⟨by omega, by exact_mod_cast hidxlt⟩]
    simp only [Int.toNat_natCast]
    exact congrArg Except.ok (getD_indexOf hmem)
  have hbne0 : ((0 : Nat) != 0) = false := rfl
  have hbne1 : ((1 : Nat) != 0) = true := rfl
  have hinte : ie.toNat < 4294967296 := by omega
  refine ⟨_, henc, by simp [u16B, u32B], ?_⟩
  intro rest
  rw [List.take_left' (by simp [u16B, u32B])]
  cases b6 <;> cases b7 <;>
    · simp only [u16B, u32B, List.cons_append, List.nil_append,
        EblbObject.from_bytes, hu16, if_true, if_false, hbne0, hbne1]
      norm_num
      rw [hpy, i16v_i16B hx0 hx1, i16v_i16B hy0 hy1, i16v_i16B hs0 hs1,
        u32v_u32B hinte, Int.toNat_of_nonneg hi0, max_eq_left h80,
        max_eq_left h90, max_eq_left ha0, max_eq_left hb0]

/-- Sequentially encoded objects decode back to the same list, leaving the
rest of the stream. -/
theorem encodeObjects_roundtrip :
    ∀ (objs : List EblbObject) (types : List (List Nat)),
      types.length < 65536 →
      (∀ o ∈ objs, objWF o ∧ o.underworld_type ∈ types) →
      ∃ bs, encodeObjects types objs = .ok bs ∧
        ∀ rest, readObjects types objs.length (bs ++ rest) = .ok (objs, rest) := by
  intro objs types hlen
  induction objs with
  | nil => exact fun _ => ⟨[], rfl, fun rest => by simp [readObjects]⟩
  | cons o os ih =>
    intro h
    obtain ⟨hwf, hmem⟩ := h o (List.mem_cons_self o os)
    obtain ⟨b, hb, hb20, hread⟩ := obj_roundtrip o types hwf hmem hlen
    obtain ⟨bs, hbs, hreads⟩ := ih (fun x hx => h x (List.mem_cons_of_mem _ hx))
    refine ⟨b ++ bs, ?_, ?_⟩
    · simp only [encodeObjects, hb, hbs]
    · intro rest
      show readObjects types (os.length + 1) ((b ++ bs) ++ rest) = _
      rw [List.append_assoc]
      simp only [readObjects, hread (bs ++ rest), List.drop_left' hb20, hreads rest]

/-- `get_padding` succeeds on ASCII strings. -/
theorem get_padding_ok (strings : List (List Nat))
    (h : ∀ s ∈ strings, ∀ c ∈ s, c < 128) :
    ∃ pad, get_padding strings = .ok pad := by
  have hall : strings.all asciiOk = true := by
    simp only [List.all_eq_true, asciiOk, decide_eq_true_eq]
    exact h
  unfold get_padding
  rw [if_pos hall]
  by_cases hm : (joinNullTerm strings).length % 4 = 0
  · rw [if_neg (not_ne_iff.mpr hm)]
    exact ⟨[], rfl⟩
  · rw [if_pos (by simpa using hm)]
    exact ⟨_, rfl⟩

/-- One door record round-trips: a well-formed door packs to a 28-byte head,
its null-terminated ASCII name, and padding, and the door reader consumes
exactly that and recovers the same door at the head of any stream. -/
theorem door_roundtrip (d : EntranceAndOrExit) (hwf : doorWF d) :
    ∃ b, d.to_bytes = .ok b ∧
      ∀ n rest, readDoors (n + 1) (b ++ rest) =
        (match readDoors n rest with
          | .error e => .error e
          | .ok (ds, r) => .ok (d :: ds, r)) := by
  obtain ⟨x1, y1, x2, y2, eid, ety, elo, ent, nm⟩ := d
  obtain ⟨hx10, hx11, hy10, hy11, hx20, hx21, hy20, hy21, he0, he1,
    hty0, hty1, hlo0, hlo1, hen0, hen1, hascii⟩ := hwf
  dsimp only at hx10 hx11 hy10 hy11 hx20 hx21 hy20 hy21 he0 he1 hty0 hty1 hlo0 hlo1 hen0 hen1 hascii
  have hnm0 : ∀ c ∈ nm, c ≠ 0 :=
    fun c hc => Nat.pos_iff_ne_zero.1 (hascii c hc).1
  have hnmascii : asciiOk nm = true := by
    simp only [asciiOk, List.all_eq_true, decide_eq_true_eq]
    exact fun c hc => (hascii c hc).2
  obtain ⟨pad, hpad⟩ := get_padding_ok [nm]
    (by simpa using fun c hc => (hascii c hc).2)
  have henc : EntranceAndOrExit.to_bytes ⟨x1, y1, x2, y2, eid, ety, elo, ent, nm⟩ =
      .ok ((u32B (x1 % 4294967296).toNat ++ u32B (y1 % 4294967296).toNat ++
        u32B (x2 % 4294967296).toNat ++ u32B (y2 % 4294967296).toNat ++
        u32B (eid % 4294967296).toNat ++ u16B ety.toNat ++ u32B elo.toNat ++
        u16B ent.toNat) ++ (nm ++ ([0] ++ pad))) := by
    unfold EntranceAndOrExit.to_bytes
    rw [packI32_ok hx10 hx11, packI32_ok hy10 hy11, packI32_ok hx20 hx21,
      packI32_ok hy20 hy21, packI32_ok he0 he1, packU16_ok hty0 hty1,
      packU32_ok hlo0 hlo1, packU16_ok hen0 hen1]
    simp only [hnmascii, if_true, hpad]
    simp only [List.append_assoc]
  have hhead28 : (u32B (x1 % 4294967296).toNat ++ u32B (y1 % 4294967296).toNat ++
      u32B (x2 % 4294967296).toNat ++ u32B (y2 % 4294967296).toNat ++
      u32B (eid % 4294967296).toNat ++ u16B ety.toNat ++ u32B elo.toNat ++
      u16B ent.toNat).length = 28 := by simp [u16B, u32B]
  refine ⟨_, henc, ?_⟩
  intro n rest
  rw [List.append_assoc]
  have hdrop : (((u32B (x1 % 4294967296).toNat ++ u32B (y1 % 4294967296).toNat ++
      u32B (x2 % 4294967296).toNat ++ u32B (y2 % 4294967296).toNat ++
      u32B (eid % 4294967296).toNat ++ u16B ety.toNat ++ u32B elo.toNat ++
      u16B ent.toNat) ++ ((nm ++ ([0] ++ pad)) ++ rest)).drop 28) =
      nm ++ 0 :: (pad ++ rest) := by
    rw [List.drop_left' hhead28]
    simp [List.append_assoc]
  have htake : (((u32B (x1 % 4294967296).toNat ++ u32B (y1 % 4294967296).toNat ++
      u32B (x2 % 4294967296).toNat ++ u32B (y2 % 4294967296).toNat ++
      u32B (eid % 4294967296).toNat ++ u16B ety.toNat ++ u32B elo.toNat ++
      u16B ent.toNat) ++ ((nm ++ ([0] ++ pad)) ++ rest)).take 28) =
      u32B (x1 % 4294967296).toNat ++ u32B (y1 % 4294967296).toNat ++
      u32B (x2 % 4294967296).toNat ++ u32B (y2 % 4294967296).toNat ++
      u32B (eid % 4294967296).toNat ++ u16B ety.toNat ++ u32B elo.toNat ++
      u16B ent.toNat := List.take_left' hhead28
  have hfb : EntranceAndOrExit.from_bytes
      (u32B (x1 % 4294967296).toNat ++ u32B (y1 % 4294967296).toNat ++
        u32B (x2 % 4294967296).toNat ++ u32B (y2 % 4294967296).toNat ++
        u32B (eid % 4294967296).toNat ++ u16B ety.toNat ++ u32B elo.toNat ++
        u16B ent.toNat) nm = .ok ⟨x1, y1, x2, y2, eid, ety, elo, ent, nm⟩ := by
    simp only [u16B, u32B, List.cons_append, List.nil_append,
      EntranceAndOrExit.from_bytes]
    rw [i32v_i32B hx10 hx11, i32v_i32B hy10 hy11, i32v_i32B hx20 hx21,
      i32v_i32B hy20 hy21, i32v_i32B he0 he1,
      u16v_u16B (by omega : ety.toNat < 65536),
      u32v_u32B (by omega : elo.toNat < 4294967296),
      u16v_u16B (by omega : ent.toNat < 65536),
      Int.toNat_of_nonneg hty0, Int.toNat_of_nonneg hlo0,
      Int.toNat_of_nonneg hen0]
  show readDoors (n + 1) _ = _
  simp only [readDoors, hdrop, readNullStr_append hnm0, hnmascii, if_true,
    hpad, htake, hfb, List.drop_left]

/-- Sequentially encoded doors decode back to the same list. -/
theorem encodeDoors_roundtrip :
    ∀ (ds : List EntranceAndOrExit), (∀ d ∈ ds, doorWF d) →
      ∃ bs, encodeDoors ds = .ok bs ∧
        ∀ rest, readDoors ds.length (bs ++ rest) = .ok (ds, rest) := by
  intro ds
  induction ds with
  | nil => exact fun _ => ⟨[], rfl, fun rest => by simp [readDoors]⟩
  | cons d ds2 ih =>
    intro h
    obtain ⟨b, hb, hstep⟩ := door_roundtrip d (h d (List.mem_cons_self d ds2))
    obtain ⟨bs, hbs, hreads⟩ := ih (fun x hx => h x (List.mem_cons_of_mem _ hx))
    refine ⟨b ++ bs, by simp only [encodeDoors, hb, hbs], ?_⟩
    intro rest
    show readDoors (ds2.length + 1) ((b ++ bs) ++ rest) = _
    rw [List.append_assoc, hstep ds2.length (bs ++ rest), hreads rest]

/-- `packU16` on a u16-sized count. -/
theorem packU16N {n : Nat} (h : n < 65536) : packU16 (n : Int) = .ok (u16B n) := by
  rw [packU16_ok (by omega) (by exact_mod_cast h)]
  simp

/-- `packU32` on a u32-sized count. -/
theorem packU32N {n : Nat} (h : n < 4294967296) : packU32 (n : Int) = .ok (u32B n) := by
  rw [packU32_ok (by omega) (by exact_mod_cast h)]
  simp

/-- The encoded camera block parses back to its four corners, leaving the
rest of the stream. -/
theorem packCamera_roundtrip (x1 y1 x2 y2 : Int)
    (h10 : -2147483648 ≤ x1) (h11 : x1 < 2147483648)
    (h20 : -2147483648 ≤ y1) (h21 : y1 < 2147483648)
    (h30 : -2147483648 ≤ x2) (h31 : x2 < 2147483648)
    (h40 : -2147483648 ≤ y2) (h41 : y2 < 2147483648) :
    ∃ cb, packCamera x1 y1 x2 y2 = .ok cb ∧
      ∀ rest, parseCameraOn (cb ++ rest) = .ok ((x1, y1, x2, y2), rest) := by
  have henc : packCamera x1 y1 x2 y2 = .ok
      (u32B (x1 % 4294967296).toNat ++ u32B (y1 % 4294967296).toNat ++
        u32B (x2 % 4294967296).toNat ++ u32B (y2 % 4294967296).toNat ++ u32B 0) := by
    unfold packCamera
    rw [packI32_ok h10 h11, packI32_ok h20 h21, packI32_ok h30 h31,
      packI32_ok h40 h41]
  have h20len : (u32B (x1 % 4294967296).toNat ++ u32B (y1 % 4294967296).toNat ++
      u32B (x2 % 4294967296).toNat ++ u32B (y2 % 4294967296).toNat ++
      u32B 0).length = 20 := by simp [u32B]
  refine ⟨_, henc, ?_⟩
  intro rest
  unfold parseCameraOn
  rw [List.take_left' h20len, List.drop_left' h20len]
  simp only [u32B, List.cons_append, List.nil_append]
  rw [show i32v (0 % 256) (0 / 256 % 256) (0 / 65536 % 256) (0 / 16777216 % 256) = 0 by
    norm_num [i32v, u32v]]
  rw [if_neg (by norm_num)]
  rw [i32v_i32B h10 h11, i32v_i32B h20 h21, i32v_i32B h30 h31, i32v_i32B h40 h41]

/-- Decoding a file that starts with a packed header whose sentinel is 1
proceeds to the post-header parse with the six header fields. -/
theorem from_eblb_file_header (oc dc tc tx ty : Nat) (rest : List Nat)
    (hoc : oc < 65536) (hdc : dc < 65536) (htc : tc < 65536)
    (htx : tx < 4294967296) (hty : ty < 4294967296) :
    ShantaeCurseEblb.from_eblb_file
      (u16B oc ++ ([1, 0] ++ (u16B dc ++ (u16B tc ++ (u32B tx ++ (u32B ty ++ rest)))))) =
      parseAfterHeader oc dc tc tx ty rest := by
  simp only [u16B, u32B, List.cons_append, List.nil_append,
    ShantaeCurseEblb.from_eblb_file]
  rw [if_neg (show ¬(u16v 1 0 ≠ 1) by norm_num [u16v])]
  rw [u16v_u16B hoc, u16v_u16B hdc, u16v_u16B htc, u32v_u32B htx, u32v_u32B hty]

/-- Decoding past the magic string and a non-empty encoded type table with its
padding recovers the table and proceeds to the post-table parse. -/
theorem parseAfterHeader_table (oc dc tc tx ty : Nat) (types : List (List Nat))
    (pad rest : List Nat) (hne : types ≠ [])
    (hlen : types.length = tc)
    (hascii : ∀ s ∈ types, ∀ c ∈ s, 0 < c ∧ c < 128)
    (hpad : get_padding (MAGICSTR :: types) = .ok pad) :
    parseAfterHeader oc dc tc tx ty (MAGIC ++ (joinNullTerm types ++ (pad ++ rest))) =
      parseAfterTable oc dc tx ty types rest := by
  unfold parseAfterHeader
  have htk : (MAGIC ++ (joinNullTerm types ++ (pad ++ rest))).take 21 = MAGIC :=
    List.take_left' rfl
  have hdr : (MAGIC ++ (joinNullTerm types ++ (pad ++ rest))).drop 21 =
      joinNullTerm types ++ (pad ++ rest) := List.drop_left' rfl
  rw [htk, hdr, if_neg (by simp), ← hlen,
    readStrings_joinNullTerm types hne hascii (pad ++ rest)]
  simp only [hpad, List.drop_left]

/-- The flattened tile grid parses back into its rows. -/
theorem parseTiles_roundtrip (rows : List (List Nat)) (w : Nat)
    (hw : 0 < w) (hrows : ∀ r ∈ rows, r.length = w) :
    parseTiles w rows.length rows.flatten = .ok rows := by
  have hlen : rows.flatten.length = rows.length * w := flatten_length_const rows w hrows
  unfold parseTiles
  rw [if_neg (by rw [hlen]; rw [Nat.mul_comm]; exact not_ne_iff.mpr rfl)]
  rw [if_neg (by omega)]
  rw [chunkRowsAux_flatten rows w rows.flatten.length hw hrows
    (by rw [hlen]; exact Nat.le_mul_of_pos_right _ hw)]

/-- Every character of the magic string is ASCII. -/
theorem MAGICSTR_ascii : ∀ c ∈ MAGICSTR, c < 128 := by decide

/-- C1 amended: a level with at least one object, serialized-range fields, and
a nonempty rectangular byte tile grid of positive width encodes successfully,
and decoding the produced bytes yields the identical level — objects, doors,
camera coordinates, and tile grid all equal, whatever order the rebuilt type
table chose. -/
theorem c1_round_trip_amended (L : ShantaeCurseEblb) (h : LevelWF L) :
    ∃ b, L.toBytes = .ok b ∧ ShantaeCurseEblb.from_eblb_file b = .ok L := by
  obtain ⟨objs, doors, cx1, cy1, cx2, cy2, tiles⟩ := L
  obtain ⟨hobjne, hoclen, hobjwf, hdclen, hdoorwf, hc10, hc11, hc20, hc21,
    hc30, hc31, hc40, hc41, htilne, hw0, hwlt, hhlt, hrect, htb⟩ := h
  dsimp only at hobjne hoclen hobjwf hdclen hdoorwf hc10 hc11 hc20 hc21 hc30 hc31 hc40 hc41 htilne hw0 hwlt hhlt hrect htb
  cases tiles with
  | nil => exact absurd rfl htilne
  | cons r0 rs =>
  dsimp only [List.headD] at hw0 hwlt hrect
  have hw0' : 0 < r0.length := Nat.pos_of_ne_zero hw0
  have hrect' : ∀ r ∈ r0 :: rs, r.length = r0.length := hrect
  set types := dedupFirst (objs.map (·.underworld_type)) with htypes
  have hmemnames : ∀ o ∈ objs, o.underworld_type ∈ types :=
    fun o ho => dedupFirstAux_mem _ [] _ (List.mem_map_of_mem _ ho)
      (List.not_mem_nil _)
  have htyfrom : ∀ s ∈ types, ∃ o ∈ objs, o.underworld_type = s := by
    intro s hs
    have hsub := dedupFirstAux_subset _ [] s hs
    rw [List.mem_map] at hsub
    exact hsub
  have htyascii : ∀ s ∈ types, ∀ c ∈ s, 0 < c ∧ c < 128 := by
    intro s hs
    obtain ⟨o, ho, hos⟩ := htyfrom s hs
    rw [← hos]
    exact (hobjwf o ho).1
  have htylen : types.length < 65536 := by
    have h1 := dedupFirstAux_length (objs.map (·.underworld_type)) []
    have h2 : (objs.map (·.underworld_type)).length = objs.length :=
      List.length_map _ _
    rw [htypes]
    unfold dedupFirst
    omega
  have htyne : types ≠ [] := by
    cases objs with
    | nil => exact absurd rfl hobjne
    | cons o os =>
      intro hc
      have hmo := hmemnames o (List.mem_cons_self o os)
      rw [hc] at hmo
      simp at hmo
  have hcheck : ShantaeCurseEblb.check_eblb ⟨objs, doors, cx1, cy1, cx2, cy2, r0 :: rs⟩ =
      .ok () := by
    unfold ShantaeCurseEblb.check_eblb
    rw [if_pos]
    simp only [List.all_eq_true, decide_eq_true_eq]
    exact hrect
  have htw : r0.length < 4294967296 := hwlt
  have hth : (r0 :: rs).length < 4294967296 := hhlt
  have hhdr : packHeader objs.length doors.length types.length r0.length
      (r0 :: rs).length = .ok (u16B objs.length ++ [1, 0] ++ u16B doors.length ++
        u16B types.length ++ u32B r0.length ++ u32B (r0 :: rs).length) := by
    unfold packHeader
    rw [packU16N hoclen, packU16N hdclen, packU16N htylen, packU32N htw,
      packU32N hth]
  have hencstr : encodeStrings types = .ok (joinNullTerm types) := by
    unfold encodeStrings
    rw [if_pos]
    simp only [List.all_eq_true, asciiOk, decide_eq_true_eq]
    exact fun s hs c hc => (htyascii s hs c hc).2
  obtain ⟨pad, hpad⟩ := get_padding_ok (MAGICSTR :: types) (by
    intro s hs
    rcases List.mem_cons.1 hs with h1 | h1
    · rw [h1]; exact MAGICSTR_ascii
    · exact fun c hc => (htyascii s h1 c hc).2)
  obtain ⟨objB, hobjB, hreadobj⟩ := encodeObjects_roundtrip objs types htylen
    (fun o ho => ⟨hobjwf o ho, hmemnames o ho⟩)
  obtain ⟨camB, hcamB, hparsecam⟩ := packCamera_roundtrip cx1 cy1 cx2 cy2
    hc10 hc11 hc20 hc21 hc30 hc31 hc40 hc41
  obtain ⟨doorB, hdoorB, hreaddoor⟩ := encodeDoors_roundtrip doors hdoorwf
  have henctiles : encodeTiles (r0 :: rs) = .ok (r0 :: rs).flatten := by
    unfold encodeTiles
    rw [if_pos]
    simp only [List.all_eq_true, decide_eq_true_eq]
    exact htb
  have henc : ShantaeCurseEblb.toBytes ⟨objs, doors, cx1, cy1, cx2, cy2, r0 :: rs⟩ =
      .ok (u16B objs.length ++ ([1, 0] ++ (u16B doors.length ++
        (u16B types.length ++ (u32B r0.length ++ (u32B (r0 :: rs).length ++
        (MAGIC ++ (joinNullTerm types ++ (pad ++ (objB ++ (camB ++ (doorB ++
        (r0 :: rs).flatten)))))))))))) := by
    unfold ShantaeCurseEblb.toBytes
    rw [← htypes]
    simp only [hcheck, hhdr, hencstr, hpad, hobjB, hcamB, hdoorB, henctiles]
    simp [List.append_assoc]
  refine ⟨_, henc, ?_⟩
  rw [from_eblb_file_header _ _ _ _ _ _ hoclen hdclen htylen htw hth]
  rw [parseAfterHeader_table _ _ _ _ _ types pad _ htyne rfl htyascii hpad]
  unfold parseAfterTable
  simp only [hreadobj, hparsecam, hreaddoor,
    parseTiles_roundtrip (r0 :: rs) r0.length hw0' hrect']

/-- C1 counterexample: the zero-object level has a rectangular grid and its
(empty) set of object type names is exactly the table encoding derives, yet
decoding its own encoding fails — with no table entries the terminator byte
written after the magic string is never consumed, so the camera block is read
one byte early and the tile count check fails. -/
theorem c1_zero_objects_breaks :
    (∀ row ∈ levelNoObjects.tiles,
      row.length = (levelNoObjects.tiles.headD []).length) ∧
    levelNoObjects.toBytes = .ok bufNoObjects ∧
    isError (ShantaeCurseEblb.from_eblb_file bufNoObjects) = true :=
  ⟨by decide, rfl, rfl⟩

/-- C1 witness: a concrete one-object, one-door level round-trips. -/
theorem c1_round_trip_amended_witness :
    LevelWF levelEx ∧
    ∃ b, levelEx.toBytes = .ok b ∧
      ShantaeCurseEblb.from_eblb_file b = .ok levelEx :=
  ⟨by decide, c1_round_trip_amended levelEx (by decide)⟩

/-- An object record of any length other than 20 bytes is rejected. -/
theorem from_bytes_not20 (entry : List Nat) (types : List (List Nat))
    (h : entry.length ≠ 20) :
    EblbObject.from_bytes entry types = .error .parsing := by
  unfold EblbObject.from_bytes
  split
  case _ e0 e1 e2 e3 e4 e5 e6 e7 e8 e9 e10 e11 e12 e13 e14 e15 e16 e17 e18 e19 =>
    simp at h
  case _ => rfl

/-- C5: each malformed input is rejected — a 19- or 21-byte object record; a
20-byte record with a boolean byte equal to 2; a 20-byte record with non-zero
trailing padding; a ≥16-byte file whose header sentinel u16 is not 1; the
synthetic file with a non-zero camera-block trailing field; and the synthetic
file with a tile payload whose length is not `tiles_w * tiles_h = 4`. -/
theorem c5_rejections :
    (∀ (entry : List Nat) (types : List (List Nat)),
      entry.length = 19 ∨ entry.length = 21 →
      isError (EblbObject.from_bytes entry types) = true) ∧
    (∀ (e0 e1 e2 e3 e4 e5 e6 e7 e8 e9 e10 e11 e12 e13 e14 e15 e16 e17 e18 e19 : Nat)
      (types : List (List Nat)), e6 = 2 ∨ e7 = 2 →
      isError (EblbObject.from_bytes
        [e0, e1, e2, e3, e4, e5, e6, e7, e8, e9, e10, e11, e12, e13, e14, e15,
         e16, e17, e18, e19] types) = true) ∧
    (∀ (e0 e1 e2 e3 e4 e5 e6 e7 e8 e9 e10 e11 e12 e13 e14 e15 e16 e17 e18 e19 : Nat)
      (types : List (List Nat)), e18 + e19 ≠ 0 →
      isError (EblbObject.from_bytes
        [e0, e1, e2, e3, e4, e5, e6, e7, e8, e9, e10, e11, e12, e13, e14, e15,
         e16, e17, e18, e19] types) = true) ∧
    (∀ (b0 b1 b2 b3 b4 b5 b6 b7 b8 b9 b10 b11 b12 b13 b14 b15 : Nat)
      (rest : List Nat), u16v b2 b3 ≠ 1 →
      isError (ShantaeCurseEblb.from_eblb_file
        (b0 :: b1 :: b2 :: b3 :: b4 :: b5 :: b6 :: b7 :: b8 :: b9 :: b10 ::
         b11 :: b12 :: b13 :: b14 :: b15 :: rest)) = true) ∧
    (∀ z : Nat, 0 < z → z < 4294967296 →
      isError (ShantaeCurseEblb.from_eblb_file
        (camPre ++ u32B z ++ [1, 2, 3, 4])) = true) ∧
    (∀ payload : List Nat, payload.length ≠ 4 →
      isError (ShantaeCurseEblb.from_eblb_file (tilesPre ++ payload)) = true) := by
  refine ⟨?_, ?_, ?_, ?_, ?_, ?_⟩
  · intro entry types h
    rw [from_bytes_not20 entry types (by omega)]
    rfl
  · intro e0 e1 e2 e3 e4 e5 e6 e7 e8 e9 e10 e11 e12 e13 e14 e15 e16 e17 e18 e19
      types h
    simp only [EblbObject.from_bytes]
    by_cases h6 : e6 = 0 ∨ e6 = 1
    · rw [if_neg (not_not.mpr h6)]
      have h7 : ¬(e7 = 0 ∨ e7 = 1) := by
        rcases h with h2 | h2
        · omega
        · omega
      rw [if_pos h7]
      rfl
    · rw [if_pos h6]
      rfl
  · intro e0 e1 e2 e3 e4 e5 e6 e7 e8 e9 e10 e11 e12 e13 e14 e15 e16 e17 e18 e19
      types h
    simp only [EblbObject.from_bytes]
    by_cases h6 : e6 = 0 ∨ e6 = 1
    · rw [if_neg (not_not.mpr h6)]
      by_cases h7 : e7 = 0 ∨ e7 = 1
      · rw [if_neg (not_not.mpr h7), if_pos h]
        rfl
      · rw [if_pos h7]
        rfl
    · rw [if_pos h6]
      rfl
  · intro b0 b1 b2 b3 b4 b5 b6 b7 b8 b9 b10 b11 b12 b13 b14 b15 rest h
    simp only [ShantaeCurseEblb.from_eblb_file]
    rw [if_pos h]
    rfl
  · intro z hz0 hz1
    have hshape : camPre ++ u32B z ++ [1, 2, 3, 4] =
        u16B 0 ++ ([1, 0] ++ (u16B 0 ++ (u16B 1 ++ (u32B 2 ++ (u32B 2 ++
          (MAGIC ++ (joinNullTerm [[65]] ++ ([0] ++
          ([0, 0, 0, 0, 0, 0, 0, 0, 10, 0, 0, 0, 10, 0, 0, 0] ++
            (u32B z ++ [1, 2, 3, 4])))))))))) := by
      simp [camPre, u16B, u32B, MAGIC, MAGICSTR, joinNullTerm]
    rw [hshape,
      from_eblb_file_header 0 0 1 2 2 _ (by norm_num) (by norm_num) (by norm_num)
        (by norm_num) (by norm_num),
      parseAfterHeader_table 0 0 1 2 2 [[65]] [0] _ (by simp) rfl
        (by decide) rfl]
    have hcam : parseCameraOn
        ([0, 0, 0, 0, 0, 0, 0, 0, 10, 0, 0, 0, 10, 0, 0, 0] ++
          (u32B z ++ [1, 2, 3, 4])) = .error .parsing := by
      have hassoc : [(0 : Nat), 0, 0, 0, 0, 0, 0, 0, 10, 0, 0, 0, 10, 0, 0, 0] ++
          (u32B z ++ [1, 2, 3, 4]) =
          (([0, 0, 0, 0, 0, 0, 0, 0, 10, 0, 0, 0, 10, 0, 0, 0] ++ u32B z) ++
            [1, 2, 3, 4]) := by
        simp [List.append_assoc]
      rw [hassoc]
      unfold parseCameraOn
      rw [List.take_left' (by simp [u32B])]
      have hne : i32v (z % 256) (z / 256 % 256) (z / 65536 % 256)
          (z / 16777216 % 256) ≠ 0 := by
        unfold i32v
        rw [u32v_u32B hz1]
        split <;> omega
      simp only [u32B, List.cons_append, List.nil_append]
      rw [if_pos hne]
    rw [parseAfterTable]
    simp only [readObjects, hcam]
    rfl
  · intro payload h
    have hshape : tilesPre ++ payload =
        u16B 0 ++ ([1, 0] ++ (u16B 0 ++ (u16B 1 ++ (u32B 2 ++ (u32B 2 ++
          (MAGIC ++ (joinNullTerm [[65]] ++ ([0] ++
          ([0, 0, 0, 0, 0, 0, 0, 0, 10, 0, 0, 0, 10, 0, 0, 0, 0, 0, 0, 0] ++
            payload))))))))) := by
      simp [tilesPre, camPre, u16B, u32B, MAGIC, MAGICSTR, joinNullTerm]
    rw [hshape,
      from_eblb_file_header 0 0 1 2 2 _ (by norm_num) (by norm_num) (by norm_num)
        (by norm_num) (by norm_num),
      parseAfterHeader_table 0 0 1 2 2 [[65]] [0] _ (by simp) rfl
        (by decide) rfl]
    have hcam : parseCameraOn
        ([0, 0, 0, 0, 0, 0, 0, 0, 10, 0, 0, 0, 10, 0, 0, 0, 0, 0, 0, 0] ++
          payload) = .ok ((0, 0, 10, 10), payload) := by
      unfold parseCameraOn
      rw [List.take_left' (by decide), List.drop_left' (by decide)]
      norm_num [i32v, u32v]
    rw [parseAfterTable]
    simp only [readObjects, hcam, readDoors]
    rw [parseTiles]
    rw [if_pos (by omega)]
    rfl

/-- C5 witness: one concrete rejected input per case. -/
theorem c5_rejections_witness :
    isError (EblbObject.from_bytes
      [0, 0, 0, 0, 0, 0, 0, 0, 0, 0, 0, 0, 0, 0, 0, 0, 0, 0, 0] []) = true ∧
    isError (EblbObject.from_bytes
      [1, 0, 0, 0, 0, 0, 2, 0, 0, 0, 0, 0, 0, 0, 0, 0, 0, 0, 0, 0] []) = true ∧
    isError (EblbObject.from_bytes
      [1, 0, 0, 0, 0, 0, 0, 0, 0, 0, 0, 0, 0, 0, 0, 0, 0, 0, 7, 0] []) = true ∧
    isError (ShantaeCurseEblb.from_eblb_file
      [0, 0, 2, 0, 0, 0, 0, 0, 0, 0, 0, 0, 0, 0, 0, 0]) = true ∧
    isError (ShantaeCurseEblb.from_eblb_file
      (camPre ++ u32B 5 ++ [1, 2, 3, 4])) = true ∧
    isError (ShantaeCurseEblb.from_eblb_file (tilesPre ++ [1, 2, 3])) = true :=
  ⟨c5_rejections.1 _ [] (Or.inl (by decide)),
   c5_rejections.2.1 1 0 0 0 0 0 2 0 0 0 0 0 0 0 0 0 0 0 0 0 [] (Or.inl rfl),
   c5_rejections.2.2.1 1 0 0 0 0 0 0 0 0 0 0 0 0 0 0 0 0 0 7 0 [] (by decide),
   c5_rejections.2.2.2.1 0 0 2 0 0 0 0 0 0 0 0 0 0 0 0 0 [] (by decide),
   c5_rejections.2.2.2.2.1 5 (by decide) (by decide),
   c5_rejections.2.2.2.2.2 [1, 2, 3] (by decide)⟩

/-- Rebuilding an object from its own dict value gives the object back. -/
theorem obj_dict_rt (o : EblbObject) : EblbObject.ofdict o.asdict = .ok o := by
  obtain ⟨ut, x, y, b6, b7, c8, c9, ca, cb, sc, ie⟩ := o
  rfl

/-- Rebuilding a door from its own dict value gives the door back. -/
theorem door_dict_rt (d : EntranceAndOrExit) :
    EntranceAndOrExit.ofdict d.asdict = .ok d := by
  obtain ⟨x1, y1, x2, y2, eid, ety, elo, ent, nm⟩ := d
  rfl

/-- Rebuilding a tile row from its own list value gives the row back. -/
theorem tileRow_rt (row : List Nat) :
    tileRowOfdict (.jlist (row.map (fun t : Nat => .jint (t : Int)))) = .ok row := by
  show tileRowAux (row.map fun t : Nat => .jint (t : Int)) = .ok row
  induction row with
  | nil => rfl
  | cons t ts ih => simp only [List.map_cons, tileRowAux, ih, Int.toNat_natCast]

/-- A fallible conversion that inverts the element map succeeds on the whole
mapped list. -/
theorem mapOfdict_map {α : Type} (f : JVal → Except PyErr α) (g : α → JVal)
    (hfg : ∀ x, f (g x) = .ok x) : ∀ l : List α, mapOfdict f (l.map g) = .ok l := by
  intro l
  induction l with
  | nil => rfl
  | cons x xs ih => simp only [List.map_cons, mapOfdict, hfg x, ih]

/-- C8: the structured-description mapping is reversible — for every level,
`from_dict (to_dict L)` succeeds and returns a level equal to `L` field by
field. -/
theorem c8_dict_roundtrip (L : ShantaeCurseEblb) :
    ShantaeCurseEblb.from_dict L.to_dict = .ok L := by
  obtain ⟨objs, doors, cx1, cy1, cx2, cy2, tiles⟩ := L
  have key : ShantaeCurseEblb.from_dict
      (ShantaeCurseEblb.to_dict ⟨objs, doors, cx1, cy1, cx2, cy2, tiles⟩) =
      (match mapOfdict EblbObject.ofdict (objs.map EblbObject.asdict),
          mapOfdict EntranceAndOrExit.ofdict (doors.map EntranceAndOrExit.asdict),
          mapOfdict tileRowOfdict (tiles.map (fun row =>
            JVal.jlist (row.map (fun t : Nat => JVal.jint (t : Int))))) with
        | .ok os, .ok ds, .ok ts => .ok ⟨os, ds, cx1, cy1, cx2, cy2, ts⟩
        | .error e, _, _ => .error e
        | _, .error e, _ => .error e
        | _, _, .error e => .error e) := rfl
  rw [key, mapOfdict_map EblbObject.ofdict EblbObject.asdict obj_dict_rt objs,
    mapOfdict_map EntranceAndOrExit.ofdict EntranceAndOrExit.asdict door_dict_rt doors,
    mapOfdict_map tileRowOfdict _ tileRow_rt tiles]
